import Mathlib

/-!
Verification of the interactive list/edit session core of the `toni`
terminal record-keeping application (Go), against its natural-language
specification.

The development shallowly embeds the Go source:

* the generic sortable/filterable/column-manageable table state machine
  (`internal/ui/visits.go` VisitsModel and `internal/ui/app.go`
  RestaurantsModel, which are textually identical up to the record type;
  embedded once as `TableState R` parameterised by the per-screen string
  projection `getValue` and the record identity);
* the undo/redo command log (`pushUndoAction`, `undoCmd`, `redoCmd`,
  `applyUndoResult`);
* the sequence-guarded debounced autocomplete pipeline of the visit and
  want-to-visit edit forms (`VisitFormModel.Update`,
  `WantToVisitFormModel.Update`);
* the repository layer used by undo of cascade deletes
  (`internal/db`: DeleteRestaurant, InsertRestaurantWithID,
  InsertVisitWithID, InsertWantToVisitWithID, GetVisitsByRestaurant,
  GetWantToVisitByRestaurant, SearchRestaurants, InsertRestaurant).

Go `int`/`int64` values are embedded as `Int` (no overflow-relevant
arithmetic occurs), Go strings as `String` (Go compares byte-wise,
Lean code-point-wise; on UTF-8 both give the same order), the SQLite
store as in-memory lists of rows.  Timestamps (`created_at`) and the
terminal rendering layer carry no behaviour relevant to the claims and
are not embedded.
-/

namespace Toni

/-- Model of Go `strings.ToLower` (embedded on the character list so the
kernel can evaluate it; `Char.toLower` lower-cases basic latin letters,
which covers the case-insensitivity the source relies on). -/
def lowerStr (s : String) : String := String.mk (s.data.map Char.toLower)

/-- Model of Go `strings.ToUpper`. -/
def upperStr (s : String) : String := String.mk (s.data.map Char.toUpper)

/-- Model of Go `strings.TrimSpace`: drop leading and trailing
whitespace. -/
def trimSpace (s : String) : String :=
  String.mk (((s.data.dropWhile Char.isWhitespace).reverse.dropWhile
    Char.isWhitespace).reverse)

/-- Model of Go `strings.EqualFold` (case-insensitive equality; embedded
as equality of lower-cased images). -/
def eqFold (a b : String) : Bool := lowerStr a == lowerStr b

/-- Model of Go truncating integer division (used by `halfPageDown`,
`halfPageUp`: Go `/` truncates toward zero). -/
def goDiv (a b : Int) : Int := Int.tdiv a b

/-- Case-insensitive substring test modelling SQLite `LIKE '%'||q||'%'`
(SQLite LIKE is case-insensitive on ASCII). -/
def likeContains (s pat : String) : Bool :=
  if lowerStr pat = "" then true
  else decide (((lowerStr s).splitOn (lowerStr pat)).length ≥ 2)

/-- Model of Go `sort.SliceStable rows less`: the unique stable sort for
the strict weak order `less`, realised as a stable merge sort on the
non-strict comparator obtained by transposing and negating `less`. -/
def sliceStable {R : Type} (rows : List R) (less : R → R → Bool) : List R :=
  rows.mergeSort (fun a b => ! less b a)

/-! ## Column Table Engine

`visitColumn` / `restaurantColumn` in the source; one `hidden`-toggleable
column of a list screen. -/

structure Column where
  key : String
  label : String
  width : Int
  hidden : Bool
deriving DecidableEq, Repr

instance : Inhabited Column := ⟨⟨"", "", 0, false⟩⟩

/-- `TablePrefs` (ui preferences record persisted per table). -/
structure TablePrefs where
  sortKey : String
  sortDesc : Bool
  hiddenColumns : List String
  activeColumn : String
deriving DecidableEq, Repr

/-- The table state shared verbatim by `VisitsModel` (visits.go) and
`RestaurantsModel` (app.go), embedded once, generically in the record
type `R`.  `cursor` and `offset` are Go `int`s and are deliberately kept
as `Int` (the source can drive `cursor` below zero). -/
structure TableState (R : Type) where
  allRows : List R
  rows : List R
  cursor : Int
  offset : Int
  viewportHeight : Int
  columns : List Column
  activeColumn : Nat
  sortKey : String
  sortDesc : Bool
  filterKey : String
  filterValue : String
deriving DecidableEq, Repr

namespace TableState

variable {R : Type}

/-- `clampCursor` (visits.go lines 129-144 / app.go lines 1285-1300). -/
def clampCursor (m : TableState R) : TableState R :=
  if m.rows.length = 0 then
    { m with cursor := 0, offset := 0 }
  else
    let c : Int := if m.cursor ≥ (m.rows.length : Int) then (m.rows.length : Int) - 1 else m.cursor
    let c : Int := if c < 0 then 0 else c
    let o : Int := if m.offset > c then c else m.offset
    { m with cursor := c, offset := o }

/-- The comparison closure passed to `sort.SliceStable` inside `rebuild`:
compares the lower-cased projections, ties broken by descending record
identity (`rows[i].ID > rows[j].ID`). -/
def rebuildLess (getValue : R → String → String) (rowID : R → Int)
    (sortKey : String) (sortDesc : Bool) (a b : R) : Bool :=
  let left := lowerStr (getValue a sortKey)
  let right := lowerStr (getValue b sortKey)
  if left = right then decide (rowID a > rowID b)
  else if sortDesc then decide (right < left)
  else decide (left < right)

/-- The filter predicate inside `rebuild`: `strings.EqualFold` of the
trimmed projection against the lower-cased trimmed filter value. -/
def rebuildFilterPred (getValue : R → String → String)
    (filterKey filterValue : String) (r : R) : Bool :=
  eqFold (trimSpace (getValue r filterKey)) (lowerStr (trimSpace filterValue))

/-- `rebuild` (visits.go lines 97-127 / app.go lines 1253-1283): derive
`rows` from `allRows` by filtering, then stably sorting, then re-clamping
cursor and offset. -/
def rebuild (getValue : R → String → String) (rowID : R → Int)
    (m : TableState R) : TableState R :=
  let rows := m.allRows
  let rows :=
    if m.filterKey ≠ "" ∧ m.filterValue ≠ "" then
      rows.filter (rebuildFilterPred getValue m.filterKey m.filterValue)
    else rows
  let rows :=
    if m.sortKey ≠ "" then
      sliceStable rows (rebuildLess getValue rowID m.sortKey m.sortDesc)
    else rows
  clampCursor { m with rows := rows }

/-- Indexes of the currently visible columns (`visibleColumnIndexes`). -/
def visibleColumnIndexes (m : TableState R) : List Nat :=
  ((List.range m.columns.length).filter
    (fun i => (m.columns.getD i default).hidden = false))

/-- `ensureVisibleActiveColumn`: if the active column is hidden, re-home
to the first visible column; if none is visible, un-hide column 0. -/
def ensureVisibleActiveColumn (m : TableState R) : TableState R :=
  if (m.columns.getD m.activeColumn default).hidden = false then m
  else
    match (List.range m.columns.length).find?
        (fun i => (m.columns.getD i default).hidden = false) with
    | some i => { m with activeColumn := i }
    | none =>
        { m with
          columns := m.columns.set 0 { m.columns.getD 0 default with hidden := false }
          activeColumn := 0 }

/-- Helper for the `NextColumn` search loop: candidate after `cur` is
`(cur+1) % len`; stop on a visible column or on returning to `start`. -/
def nextColumnAux (cols : List Column) (start : Nat) : Nat → Nat → Nat
  | 0, cur => cur
  | fuel + 1, cur =>
      let next := (cur + 1) % cols.length
      if (cols.getD next default).hidden = false ∨ next = start then next
      else nextColumnAux cols start fuel next

/-- `NextColumn`: cyclic forward move of the active column, skipping
hidden columns (terminates on reaching the start again). -/
def nextColumn (m : TableState R) : TableState R :=
  { m with activeColumn :=
      nextColumnAux m.columns m.activeColumn m.columns.length m.activeColumn }

/-- Helper for the `PrevColumn` search loop: candidate before `cur`,
wrapping to `len - 1` below zero. -/
def prevColumnAux (cols : List Column) (start : Nat) : Nat → Nat → Nat
  | 0, cur => cur
  | fuel + 1, cur =>
      let next := if cur = 0 then cols.length - 1 else cur - 1
      if (cols.getD next default).hidden = false ∨ next = start then next
      else prevColumnAux cols start fuel next

/-- `PrevColumn`: cyclic backward move of the active column. -/
def prevColumn (m : TableState R) : TableState R :=
  { m with activeColumn :=
      prevColumnAux m.columns m.activeColumn m.columns.length m.activeColumn }

/-- `JumpToColumn` (1-based; fails on out-of-range or hidden target). -/
def jumpToColumn (m : TableState R) (number : Int) : TableState R × Bool :=
  if number < 1 ∨ number > (m.columns.length : Int) then (m, false)
  else
    let idx := (number - 1).toNat
    if (m.columns.getD idx default).hidden then (m, false)
    else ({ m with activeColumn := idx }, true)

/-- `SortActiveColumn`. -/
def sortActiveColumn (getValue : R → String → String) (rowID : R → Int)
    (m : TableState R) (desc : Bool) : TableState R :=
  rebuild getValue rowID
    { m with sortKey := (m.columns.getD m.activeColumn default).key, sortDesc := desc }

/-- `CycleSortActiveColumn` (visits.go lines 219-238): three-state cycle
on the active column, returning the status-line description. -/
def cycleSortActiveColumn (getValue : R → String → String) (rowID : R → Int)
    (m : TableState R) : TableState R × String :=
  let activeKey := (m.columns.getD m.activeColumn default).key
  let activeLabel := upperStr (m.columns.getD m.activeColumn default).label
  if m.sortKey ≠ activeKey then
    (rebuild getValue rowID { m with sortKey := activeKey, sortDesc := false },
     "Sorted " ++ activeLabel ++ " ascending")
  else if m.sortDesc = false then
    (rebuild getValue rowID { m with sortDesc := true },
     "Sorted " ++ activeLabel ++ " descending")
  else
    (rebuild getValue rowID { m with sortKey := "", sortDesc := false },
     "Sorting cleared")

/-- `HideActiveColumn` (visits.go lines 240-247): refuse when at most one
visible column remains, else hide the active column and re-home. -/
def hideActiveColumn (m : TableState R) : TableState R × Bool :=
  if m.visibleColumnIndexes.length ≤ 1 then (m, false)
  else
    let cols := m.columns.set m.activeColumn
      { m.columns.getD m.activeColumn default with hidden := true }
    let m2 := { m with columns := cols }
    (ensureVisibleActiveColumn m2, true)

/-- `ShowAllColumns`. -/
def showAllColumns (m : TableState R) : TableState R :=
  { m with columns := m.columns.map (fun c => { c with hidden := false }) }

/-- `FilterBySelectedValue`: take the trimmed projection of the selected
cell in the active column; reject empty values. -/
def filterBySelectedValue [Inhabited R] (getValue : R → String → String)
    (rowID : R → Int) (m : TableState R) : TableState R × Bool :=
  if m.rows.length = 0 then (m, false)
  else
    let key := (m.columns.getD m.activeColumn default).key
    let value := trimSpace (getValue (m.rows.getD m.cursor.toNat default) key)
    if value = "" then (m, false)
    else (rebuild getValue rowID { m with filterKey := key, filterValue := value }, true)

/-- `ClearFilter`. -/
def clearFilter (getValue : R → String → String) (rowID : R → Int)
    (m : TableState R) : TableState R × Bool :=
  if m.filterKey = "" then (m, false)
  else (rebuild getValue rowID { m with filterKey := "", filterValue := "" }, true)

/-- `CycleFilterBySelectedValue`: idempotent filter toggle from the
selected cell, returning the status-line message. -/
def cycleFilterBySelectedValue [Inhabited R] (getValue : R → String → String)
    (rowID : R → Int) (m : TableState R) : TableState R × String :=
  if m.rows.length = 0 then (m, "No rows to filter")
  else
    let key := (m.columns.getD m.activeColumn default).key
    let value := trimSpace (getValue (m.rows.getD m.cursor.toNat default) key)
    if value = "" then (m, "No filterable value in selected cell")
    else if m.filterKey = key ∧ eqFold (trimSpace m.filterValue) value then
      (rebuild getValue rowID { m with filterKey := "", filterValue := "" },
       "Filter cleared")
    else
      (rebuild getValue rowID { m with filterKey := key, filterValue := value },
       "Filter applied from selected value")

/-- `ApplyPrefs` (visits.go lines 58-80): restore sort, hidden columns
and active column from persisted preferences, then re-home and rebuild. -/
def applyPrefs (getValue : R → String → String) (rowID : R → Int)
    (m : TableState R) (prefs : TablePrefs) : TableState R :=
  let m :=
    if prefs.sortKey ≠ "" then
      { m with sortKey := prefs.sortKey, sortDesc := prefs.sortDesc }
    else m
  let cols := m.columns.map
    (fun c => { c with hidden := prefs.hiddenColumns.contains c.key })
  let m := { m with columns := cols }
  let m :=
    if prefs.activeColumn ≠ "" then
      match (List.range m.columns.length).find?
          (fun i => (m.columns.getD i default).key = prefs.activeColumn) with
      | some i => { m with activeColumn := i }
      | none => m
    else m
  rebuild getValue rowID (ensureVisibleActiveColumn m)

/-- `MoveDown` (visits.go lines 490-501). -/
def moveDown (m : TableState R) : TableState R :=
  if m.cursor < (m.rows.length : Int) - 1 then
    let cursor := m.cursor + 1
    let vh : Int := if m.viewportHeight = 0 then 10 else m.viewportHeight
    let offset := if cursor ≥ m.offset + vh then m.offset + 1 else m.offset
    { m with cursor := cursor, offset := offset }
  else m

/-- `MoveUp`. -/
def moveUp (m : TableState R) : TableState R :=
  if m.cursor > 0 then
    let cursor := m.cursor - 1
    let offset := if cursor < m.offset then m.offset - 1 else m.offset
    { m with cursor := cursor, offset := offset }
  else m

/-- `JumpToTop`. -/
def jumpToTop (m : TableState R) : TableState R :=
  { m with cursor := 0, offset := 0 }

/-- `JumpToBottom`. -/
def jumpToBottom (m : TableState R) : TableState R :=
  if m.rows.length > 0 then
    let cursor : Int := (m.rows.length : Int) - 1
    let vh : Int := if m.viewportHeight = 0 then 10 else m.viewportHeight
    let offset := if cursor ≥ vh then cursor - vh + 1 else m.offset
    { m with cursor := cursor, offset := offset }
  else m

/-- `HalfPageDown` (visits.go lines 534-547 / app.go lines 1685-1698).
NOTE the source clamps with `cursor = len(rows) - 1` without the
emptiness guard that `JumpToBottom` has. -/
def halfPageDown (m : TableState R) (pageSize : Int) : TableState R :=
  let halfPage := goDiv pageSize 2
  let cursor := m.cursor + halfPage
  let cursor := if cursor ≥ (m.rows.length : Int) then (m.rows.length : Int) - 1 else cursor
  let vh : Int := if m.viewportHeight = 0 then 10 else m.viewportHeight
  let offset := if cursor ≥ m.offset + vh then cursor - vh + 1 else m.offset
  { m with cursor := cursor, offset := offset }

/-- `HalfPageUp`. -/
def halfPageUp (m : TableState R) (pageSize : Int) : TableState R :=
  let halfPage := goDiv pageSize 2
  let cursor := m.cursor - halfPage
  let cursor := if cursor < 0 then 0 else cursor
  let offset := if cursor < m.offset then cursor else m.offset
  { m with cursor := cursor, offset := offset }

end TableState

/-! ## Concrete record rows and projections

`model.VisitRow` / `model.RestaurantRow` (internal/model).  Go `*float64`
fields are embedded as `Option Rat`: the claims never compute with the
numeric values, they are only carried and rendered. -/

structure VisitRow where
  id : Int
  visitedOn : String
  restaurantName : String
  city : String
  address : String
  priceRange : String
  rating : Option Rat
  wouldReturn : Option Bool
  notes : String
  restaurantID : Int
deriving DecidableEq, Repr, Inhabited

structure RestaurantRow where
  id : Int
  name : String
  address : String
  city : String
  neighborhood : String
  cuisine : String
  priceRange : String
  avgRating : Option Rat
  visitCount : Int
  lastVisit : String
deriving DecidableEq, Repr, Inhabited

/-- Zero-pad the decimal rendering of a non-negative integer to `w`
digits (helper for the `fmt.Sprintf` zero-padded verbs below). -/
def padZero (w : Nat) (n : Int) : String :=
  let s := toString n
  String.mk (List.replicate (w - s.length) '0') ++ s

/-- Model of Go `fmt.Sprintf("%05.2f", x)` on the embedded rationals:
two decimals (rounded half-up), zero-padded to overall width 5. -/
def formatFloat52 (q : Rat) : String :=
  let cents : Int := (q * 100 + 1/2).floor
  let s := toString (cents / 100) ++ "." ++ padZero 2 (cents % 100)
  String.mk (List.replicate (5 - s.length) '0') ++ s

/-- `VisitsModel.getValue` (visits.go lines 146-176): string projection
of one visit row for a column key. -/
def visitGetValue (row : VisitRow) (key : String) : String :=
  match key with
  | "date" => row.visitedOn
  | "name" => row.restaurantName
  | "address" => row.address
  | "city" => row.city
  | "price" => row.priceRange
  | "rating" =>
      match row.rating with
      | none => ""
      | some r => formatFloat52 r
  | "return" =>
      match row.wouldReturn with
      | none => ""
      | some b => if b then "yes" else "no"
  | "notes" => row.notes
  | _ => ""

/-- `RestaurantsModel.getValue` (app.go lines 1302-1328). -/
def restaurantGetValue (row : RestaurantRow) (key : String) : String :=
  match key with
  | "name" => row.name
  | "address" => row.address
  | "city" => row.city
  | "area" => row.neighborhood
  | "cuisine" => row.cuisine
  | "price" => row.priceRange
  | "rating" =>
      match row.avgRating with
      | none => ""
      | some r => formatFloat52 r
  | "visits" => padZero 6 row.visitCount
  | "last" => row.lastVisit
  | _ => ""

/-- `NewVisitsModel` (visits.go lines 39-56). -/
def newVisitsModel (rows : List VisitRow) : TableState VisitRow :=
  { allRows := rows
    rows := rows
    cursor := 0
    offset := 0
    viewportHeight := 0
    columns :=
      [ { key := "date", label := "date", width := 12, hidden := false }
      , { key := "name", label := "name", width := 24, hidden := false }
      , { key := "address", label := "address", width := 20, hidden := false }
      , { key := "city", label := "city", width := 14, hidden := false }
      , { key := "price", label := "price", width := 10, hidden := false }
      , { key := "rating", label := "rating", width := 8, hidden := false }
      , { key := "return", label := "return", width := 8, hidden := false }
      , { key := "notes", label := "notes", width := 24, hidden := false } ]
    activeColumn := 0
    sortKey := ""
    sortDesc := false
    filterKey := ""
    filterValue := "" }

/-- `NewRestaurantsModel` (app.go lines 1196-1212). -/
def newRestaurantsModel (rows : List RestaurantRow) : TableState RestaurantRow :=
  { allRows := rows
    rows := rows
    cursor := 0
    offset := 0
    viewportHeight := 0
    columns :=
      [ { key := "name", label := "name", width := 24, hidden := false }
      , { key := "address", label := "address", width := 20, hidden := false }
      , { key := "city", label := "city", width := 14, hidden := false }
      , { key := "area", label := "area", width := 14, hidden := false }
      , { key := "cuisine", label := "cuisine", width := 14, hidden := false }
      , { key := "price", label := "price", width := 10, hidden := false }
      , { key := "rating", label := "rating", width := 8, hidden := false }
      , { key := "visits", label := "visits", width := 8, hidden := false }
      , { key := "last", label := "last", width := 14, hidden := false } ]
    activeColumn := 0
    sortKey := ""
    sortDesc := false
    filterKey := ""
    filterValue := "" }

/-! ## Spec-side derivation of `visible` (for the refinement claim C3)

The specification's words (spec.md section 3): `visible` = `all`
filtered by case-insensitive exact match of the trimmed filter value
against the column's string projection — the projection itself is not
trimmed there — then stably sorted by the case-insensitive string
projection of the sort key in the requested direction, ties broken by
descending record identity.  `specFilterPredLiteral` follows those words
as written; the code's `rebuild` additionally trims the record's
projection before comparing, so the two filters disagree on a projection
carrying surrounding whitespace.  `specFilterPred` is the amended filter
(both sides trimmed), and `specVisible` the amended pipeline. -/

/-- Modelled from the spec: the filter as the claim and spec.md section 3
literally state it — the trimmed, lower-cased filter value compared
against the lower-cased column projection, the projection untrimmed. -/
def specFilterPredLiteral {R : Type} (getValue : R → String → String)
    (filterKey filterValue : String) (r : R) : Bool :=
  (lowerStr (getValue r filterKey) == lowerStr (trimSpace filterValue))

/-- The amended spec-side filter predicate: case-insensitive exact match
with both the record's projection and the filter value trimmed, as the
code's `rebuild` actually compares them. -/
def specFilterPred {R : Type} (getValue : R → String → String)
    (filterKey filterValue : String) (r : R) : Bool :=
  (lowerStr (trimSpace (getValue r filterKey)) == lowerStr (trimSpace filterValue))

/-- Spec-side ordering: by lower-cased projection of the sort key, in the
requested direction, ties broken by descending record identity. -/
def specLE {R : Type} (getValue : R → String → String) (rowID : R → Int)
    (sortKey : String) (sortDesc : Bool) (a b : R) : Bool :=
  let pa := lowerStr (getValue a sortKey)
  let pb := lowerStr (getValue b sortKey)
  if sortDesc then
    decide (pb < pa) || (decide (pa = pb) && decide (rowID b ≤ rowID a))
  else
    decide (pa < pb) || (decide (pa = pb) && decide (rowID b ≤ rowID a))

/-- The amended spec-side `visible`: filter by `specFilterPred` (both
sides trimmed), then stable sort by `specLE`. -/
def specVisible {R : Type} (getValue : R → String → String) (rowID : R → Int)
    (m : TableState R) : List R :=
  let filtered :=
    if m.filterKey ≠ "" ∧ m.filterValue ≠ "" then
      m.allRows.filter (specFilterPred getValue m.filterKey m.filterValue)
    else m.allRows
  if m.sortKey ≠ "" then
    filtered.mergeSort (specLE getValue rowID m.sortKey m.sortDesc)
  else filtered

/-! ## Navigation screens and load commands -/

/-- `model.Screen` (internal/model/msg.go). -/
inductive Screen where
  | visits
  | restaurants
  | wantToVisit
  | visitDetail
  | restaurantDetail
  | wantToVisitDetail
  | visitForm
  | restaurantForm
  | wantToVisitForm
deriving DecidableEq, Repr

/-- The three screen-data load commands (`loadVisitsCmd`,
`loadRestaurantsCmd`, `loadWantToVisitCmd` in app.go), abstracted to
which screen's Table Engine data they reload. -/
inductive LoadCmd where
  | loadVisits
  | loadRestaurants
  | loadWantToVisit
deriving DecidableEq, Repr

/-- `reloadCurrentTopLevelCmd` (undo file, lines 903-914): reload the
table data of the screen family currently shown, and only that one. -/
def reloadCurrentTopLevelCmd (screen : Screen) : List LoadCmd :=
  match screen with
  | .visits | .visitDetail | .visitForm => [.loadVisits]
  | .restaurants | .restaurantDetail | .restaurantForm => [.loadRestaurants]
  | .wantToVisit | .wantToVisitDetail | .wantToVisitForm => [.loadWantToVisit]

/-! ## Undo/Redo command log

`undoAction` stores two closures over the repository.  For the stack
discipline claims the closures are opaque; the outcome of invoking one
against the repository re-enters the event loop inside
`undoAppliedMsg.err` and is a parameter here.  The concrete repository
effects of the delete-restaurant action are embedded separately on the
`Db` model below. -/

/-- `undoAction` with the repository closures abstracted away; `label`
is the human-readable description used in status messages. -/
structure UndoAction where
  label : String
deriving DecidableEq, Repr

/-- `undoAppliedMsg`: completion message of an undo or redo attempt.
`err = none` models a nil error. -/
structure UndoAppliedMsg where
  err : Option String
  action : UndoAction
  direction : String
deriving DecidableEq, Repr

/-- The undo/redo-relevant fields of the root `Model` (app.go): the two
stacks (slice end = stack top, as in the source), the current screen and
the transient status strings. -/
structure AppUndoState where
  screen : Screen
  undoStack : List UndoAction
  redoStack : List UndoAction
  error : String
  info : String
deriving DecidableEq, Repr

namespace AppUndoState

/-- `pushUndoAction` (undo file, lines 708-711): append to `undoStack`,
discard `redoStack`. -/
def pushUndoAction (m : AppUndoState) (action : UndoAction) : AppUndoState :=
  { m with undoStack := m.undoStack ++ [action], redoStack := [] }

/-- `applyUndoResult` (undo file, lines 951-966).  Returns the new state
together with the follow-up load commands (`nil` on failure, a single
top-level reload on success; in particular the failed action is never
re-issued). -/
def applyUndoResult (m : AppUndoState) (msg : UndoAppliedMsg) :
    AppUndoState × List LoadCmd :=
  match msg.err with
  | some e => ({ m with error := msg.direction ++ " failed: " ++ e }, [])
  | none =>
      if msg.direction = "undo" then
        ({ m with redoStack := m.redoStack ++ [msg.action]
                  info := "Undid: " ++ msg.action.label
                  error := "" },
         reloadCurrentTopLevelCmd m.screen)
      else
        ({ m with undoStack := m.undoStack ++ [msg.action]
                  info := "Redid: " ++ msg.action.label
                  error := "" },
         reloadCurrentTopLevelCmd m.screen)

/-- `undoCmd` (undo file, lines 713-723) followed by the completion
event: pop the top of `undoStack`, invoke the action's `undo` closure
(its outcome is the parameter `opErr`), and feed the resulting
`undoAppliedMsg` through `applyUndoResult`.  The event loop is
single-threaded, so no other event intervenes in the claims considered
here. -/
def attemptUndo (m : AppUndoState) (opErr : Option String) :
    AppUndoState × List LoadCmd :=
  match m.undoStack.getLast? with
  | none => (m, [])
  | some action =>
      let m1 := { m with undoStack := m.undoStack.dropLast }
      applyUndoResult m1 { err := opErr, action := action, direction := "undo" }

/-- `redoCmd` (undo file, lines 725-735) followed by the completion
event, as for `attemptUndo`. -/
def attemptRedo (m : AppUndoState) (opErr : Option String) :
    AppUndoState × List LoadCmd :=
  match m.redoStack.getLast? with
  | none => (m, [])
  | some action =>
      let m1 := { m with redoStack := m.redoStack.dropLast }
      applyUndoResult m1 { err := opErr, action := action, direction := "redo" }

end AppUndoState

/-- The reloads issued by `Model.Update` (app.go) for each direct
mutation message, exactly as batched in the source. -/
inductive MutationMsg where
  | visitSaved
  | restaurantSaved
  | wantToVisitSaved
  | deleteVisit
  | deleteRestaurant
  | deleteWantToVisit
  | convertToVisit
deriving DecidableEq, Repr

/-- Reload batch per direct mutation message (app.go lines 161-254). -/
def mutationReloads (msg : MutationMsg) : List LoadCmd :=
  match msg with
  | .visitSaved => [.loadVisits, .loadRestaurants, .loadWantToVisit]
  | .restaurantSaved => [.loadRestaurants, .loadVisits, .loadWantToVisit]
  | .wantToVisitSaved => [.loadWantToVisit, .loadRestaurants]
  | .deleteVisit => [.loadVisits, .loadRestaurants, .loadWantToVisit]
  | .deleteRestaurant => [.loadRestaurants, .loadVisits, .loadWantToVisit]
  | .deleteWantToVisit => [.loadWantToVisit]
  | .convertToVisit => [.loadWantToVisit]

/-! ## Debounced search pipeline (visit and want-to-visit forms) -/

/-- `search.Suggestion` (package `search`, internal/ui/keys.go lines
230-241): a restaurant autocomplete result carrying name, city,
neighborhood (the state is used as its proxy), address, cuisine (first
category title), price tier, coordinates and the Yelp business id; the
`float64` coordinates are embedded as `Rat`. -/
structure Suggestion where
  name : String
  city : String
  neighborhood : String
  address : String
  cuisine : String
  priceRange : String
  latitude : Rat
  longitude : Rat
  placeID : String
deriving DecidableEq, Repr

/-- `autocompleteResultMsg` (visit form) / `wtvAutocompleteResultMsg`
(want-to-visit form): completion of an asynchronous suggestion lookup,
tagged with the sequence it was issued under. -/
structure AutocompleteResultMsg where
  seq : Int
  results : List Suggestion
  err : Option String
deriving DecidableEq, Repr

/-- `VisitFormModel`, restricted to the fields the claims concern.  The
five text inputs are embedded by their string values (`inputs 0` is the
searchable restaurant-name field); the spinner is rendering-only and
omitted. -/
structure VisitFormModel where
  visitID : Int
  restaurantID : Int
  focusedField : Nat
  inputs : List String
  restaurantName : String
  error : String
  searchSeq : Int
  searchResults : List Suggestion
  searchCursor : Nat
  showDropdown : Bool
  searching : Bool
deriving DecidableEq, Repr

namespace VisitFormModel

/-- The `debounceTick` case of `VisitFormModel.Update` (lines 146-151):
honour the timer only if its sequence is still current (and a search
client is configured); then issue the lookup carrying the same sequence.
The returned option is the issued `doSearch(query, seq)` request. -/
def updateDebounceTick (hasClient : Bool) (m : VisitFormModel) (seq : Int) :
    VisitFormModel × Option (String × Int) :=
  if seq = m.searchSeq ∧ hasClient then
    (m, some (m.inputs.getD 0 "", seq))
  else (m, none)

/-- The `autocompleteResultMsg` case of `VisitFormModel.Update` (lines
152-165): apply the result only if its sequence is still current;
otherwise the message (success or error) is dropped without any state
change. -/
def updateAutocompleteResult (m : VisitFormModel) (msg : AutocompleteResultMsg) :
    VisitFormModel :=
  if msg.seq = m.searchSeq then
    let m := { m with searching := false }
    match msg.err with
    | some e => { m with error := "Search error: " ++ e, showDropdown := false }
    | none =>
        { m with error := ""
                 searchResults := msg.results
                 searchCursor := 0
                 showDropdown := decide (msg.results.length > 0) }
  else m

/-- The tail of `VisitFormModel.Update` for a text-editing keystroke on
the focused input (lines 227-261): the focused input takes the value
`newValue`; a restaurant-name edit that diverges from the selected or
prefilled name clears the stored restaurant id; a query of length ≥ 2
mints a new sequence and schedules a debounce tick carrying it (returned
as the option). -/
def updateTypedKey (hasClient : Bool) (m : VisitFormModel) (newValue : String) :
    VisitFormModel × Option Int :=
  let m := { m with inputs := m.inputs.set m.focusedField newValue }
  let m :=
    if m.focusedField = 0 ∧ trimSpace (m.inputs.getD 0 "") ≠ m.restaurantName then
      { m with restaurantID := 0 }
    else m
  if m.focusedField = 0 ∧ hasClient then
    let query := m.inputs.getD 0 ""
    if query.utf8ByteSize ≥ 2 then
      let seq := m.searchSeq + 1
      ({ m with searchSeq := seq, searching := true, showDropdown := false },
       some seq)
    else
      ({ m with showDropdown := false, searchResults := [], searching := false },
       none)
  else (m, none)

end VisitFormModel

/-- `WantToVisitFormModel`, restricted to the fields the claims concern
(three text inputs; `inputs 0` is the searchable restaurant-name
field). -/
structure WantToVisitFormModel where
  wantToVisitID : Int
  restaurantID : Int
  focusedField : Nat
  inputs : List String
  restaurantName : String
  error : String
  searchSeq : Int
  searchResults : List Suggestion
  searchCursor : Nat
  showDropdown : Bool
  searching : Bool
deriving DecidableEq, Repr

namespace WantToVisitFormModel

/-- The `wtvDebounceTick` case of `WantToVisitFormModel.Update` (lines
121-126), identical in shape to the visit form's. -/
def updateDebounceTick (hasClient : Bool) (m : WantToVisitFormModel) (seq : Int) :
    WantToVisitFormModel × Option (String × Int) :=
  if seq = m.searchSeq ∧ hasClient then
    (m, some (m.inputs.getD 0 "", seq))
  else (m, none)

/-- The `wtvAutocompleteResultMsg` case of `WantToVisitFormModel.Update`
(lines 127-140). -/
def updateAutocompleteResult (m : WantToVisitFormModel)
    (msg : AutocompleteResultMsg) : WantToVisitFormModel :=
  if msg.seq = m.searchSeq then
    let m := { m with searching := false }
    match msg.err with
    | some e => { m with error := "Search error: " ++ e, showDropdown := false }
    | none =>
        { m with error := ""
                 searchResults := msg.results
                 searchCursor := 0
                 showDropdown := decide (msg.results.length > 0) }
  else m

/-- The tail of `WantToVisitFormModel.Update` for a text-editing
keystroke on the focused input (lines 197-227). -/
def updateTypedKey (hasClient : Bool) (m : WantToVisitFormModel)
    (newValue : String) : WantToVisitFormModel × Option Int :=
  let m := { m with inputs := m.inputs.set m.focusedField newValue }
  let m :=
    if m.focusedField = 0 ∧ trimSpace (m.inputs.getD 0 "") ≠ m.restaurantName then
      { m with restaurantID := 0 }
    else m
  if m.focusedField = 0 ∧ hasClient then
    let query := m.inputs.getD 0 ""
    if query.utf8ByteSize ≥ 2 then
      let seq := m.searchSeq + 1
      ({ m with searchSeq := seq, searching := true, showDropdown := false },
       some seq)
    else
      ({ m with showDropdown := false, searchResults := [], searching := false },
       none)
  else (m, none)

end WantToVisitFormModel

/-! ## Record repository (internal/db over the SQLite store)

The store is embedded as in-memory lists of rows in insertion order;
`INTEGER PRIMARY KEY` uniqueness is modelled by an error on duplicate-id
inserts and `ORDER BY id` by a merge sort on ids.  `created_at`
timestamps carry no claim-relevant behaviour and are omitted. -/

/-- `model.Restaurant` (without the timestamp). -/
structure Restaurant where
  id : Int
  name : String
  address : String
  city : String
  neighborhood : String
  cuisine : String
  priceRange : String
  latitude : Option Rat
  longitude : Option Rat
  placeID : String
deriving DecidableEq, Repr, Inhabited

/-- `model.Visit` (without the timestamp). -/
structure Visit where
  id : Int
  restaurantID : Int
  visitedOn : String
  rating : Option Rat
  notes : String
  wouldReturn : Option Bool
deriving DecidableEq, Repr, Inhabited

/-- `model.WantToVisit` (without the timestamp). -/
structure WantToVisit where
  id : Int
  restaurantID : Int
  notes : String
  priority : Option Int
deriving DecidableEq, Repr, Inhabited

/-- The three tables of the SQLite store, rows in insertion order. -/
structure Db where
  restaurants : List Restaurant
  visits : List Visit
  wantToVisit : List WantToVisit
deriving DecidableEq, Repr

namespace Db

/-- `db.InsertRestaurantWithID`: explicit-identity insert; fails on a
primary-key collision. -/
def InsertRestaurantWithID (db : Db) (r : Restaurant) : Except String Db :=
  if db.restaurants.any (fun x => x.id = r.id) then
    .error "failed to insert restaurant with id: UNIQUE constraint failed"
  else .ok { db with restaurants := db.restaurants ++ [r] }

/-- `db.InsertVisitWithID`. -/
def InsertVisitWithID (db : Db) (v : Visit) : Except String Db :=
  if db.visits.any (fun x => x.id = v.id) then
    .error "failed to insert visit with id: UNIQUE constraint failed"
  else .ok { db with visits := db.visits ++ [v] }

/-- `db.InsertWantToVisitWithID`. -/
def InsertWantToVisitWithID (db : Db) (w : WantToVisit) : Except String Db :=
  if db.wantToVisit.any (fun x => x.id = w.id) then
    .error "failed to insert want_to_visit with id: UNIQUE constraint failed"
  else .ok { db with wantToVisit := db.wantToVisit ++ [w] }

/-- `db.DeleteRestaurant` (part_001 lines 251-275): one transaction
deleting the dependent visits, the dependent want_to_visit rows and the
restaurant row (infrastructure failures of the store itself are outside
the model). -/
def DeleteRestaurant (db : Db) (id : Int) : Db :=
  { restaurants := db.restaurants.filter (fun r => ¬ r.id = id)
    visits := db.visits.filter (fun v => ¬ v.restaurantID = id)
    wantToVisit := db.wantToVisit.filter (fun w => ¬ w.restaurantID = id) }

/-- `db.DeleteVisit`. -/
def DeleteVisit (db : Db) (id : Int) : Db :=
  { db with visits := db.visits.filter (fun v => ¬ v.id = id) }

/-- `db.DeleteWantToVisit`. -/
def DeleteWantToVisit (db : Db) (id : Int) : Db :=
  { db with wantToVisit := db.wantToVisit.filter (fun w => ¬ w.id = id) }

/-- `db.GetRestaurant`: `QueryRow ... WHERE id = ?` returns the first
matching row, an error when there is none. -/
def GetRestaurant (db : Db) (id : Int) : Option Restaurant :=
  db.restaurants.find? (fun r => r.id = id)

/-- `db.GetVisitsByRestaurant` (part_001 lines 433-472): dependent
visits of one restaurant, `ORDER BY id`. -/
def GetVisitsByRestaurant (db : Db) (restaurantID : Int) : List Visit :=
  (db.visits.filter (fun v => v.restaurantID = restaurantID)).mergeSort
    (fun a b => decide (a.id ≤ b.id))

/-- `db.GetWantToVisitByRestaurant` (part_001 lines 474-504). -/
def GetWantToVisitByRestaurant (db : Db) (restaurantID : Int) : List WantToVisit :=
  (db.wantToVisit.filter (fun w => w.restaurantID = restaurantID)).mergeSort
    (fun a b => decide (a.id ≤ b.id))

/-- `db.SearchRestaurants` (part_001 lines 277-326):
`WHERE name LIKE '%'||q||'%' ORDER BY name LIMIT 20`. -/
def SearchRestaurants (db : Db) (query : String) : List Restaurant :=
  (((db.restaurants.filter (fun r => likeContains r.name query)).mergeSort
    (fun a b => decide (a.name ≤ b.name))).take 20)

/-- The SQLite rowid assigned to an auto-identity insert: one more than
the largest existing rowid (zero base). -/
def nextRestaurantId (db : Db) : Int :=
  (db.restaurants.map (fun r => r.id)).foldl max 0 + 1

/-- `db.InsertRestaurant` (auto-assigned identity), returning the new
store and the assigned id; non-name attributes default to empty as in
`model.NewRestaurant{Name: restaurantName}`. -/
def InsertRestaurant (db : Db) (name : String) : Db × Int :=
  let id := nextRestaurantId db
  ({ db with restaurants := db.restaurants ++
      [{ id := id, name := name, address := "", city := "", neighborhood := ""
         cuisine := "", priceRange := "", latitude := none, longitude := none
         placeID := "" }] },
   id)

end Db

/-- `findExactRestaurantID` (visit form, lines 574-582): first search
result whose trimmed lower-cased name equals the trimmed lower-cased
query name. -/
def findExactRestaurantID (restaurants : List Restaurant)
    (restaurantName : String) : Option Int :=
  let target := lowerStr (trimSpace restaurantName)
  (restaurants.find? (fun r => lowerStr (trimSpace r.name) == target)).map
    (fun r => r.id)

/-- The find-or-create step of `VisitFormModel.save` /
`WantToVisitFormModel.save` (visit form, lines 460-482): a positive
stored id is reused as is; otherwise the trimmed typed name is resolved
against the store, reusing an exact case-insensitive match among the
search results, else inserting a new restaurant carrying just the typed
name. -/
def resolveRestaurantID (db : Db) (restaurantID : Int)
    (restaurantName : String) : Db × Int :=
  if restaurantID > 0 then (db, restaurantID)
  else
    match findExactRestaurantID (db.SearchRestaurants restaurantName) restaurantName with
    | some existingID => (db, existingID)
    | none => db.InsertRestaurant restaurantName

/-- The `undo` closure built by `buildDeleteRestaurantAction` (undo
file, lines 862-888): re-insert the deleted parent first, then every
captured want_to_visit row, then every captured visit row, each with its
original primary identity; the first repository error aborts. -/
def undoDeleteRestaurant (db : Db) (deleted : Restaurant)
    (entries : List WantToVisit) (visits : List Visit) : Except String Db := do
  let db ← db.InsertRestaurantWithID deleted
  let db ← entries.foldlM Db.InsertWantToVisitWithID db
  let db ← visits.foldlM Db.InsertVisitWithID db
  pure db

/-- The `redo` closure of the same action: re-run the cascade delete. -/
def redoDeleteRestaurant (db : Db) (deleted : Restaurant) : Db :=
  db.DeleteRestaurant deleted.id

/-- The capture phase of `deleteRestaurantCmd` (app.go lines 1063-1089):
snapshot the parent and every dependent row before the cascade executes,
then run the cascade delete.  Returns the parent snapshot, the captured
dependents and the post-delete store (`none` when the parent does not
exist, in which case the command fails before deleting). -/
def deleteRestaurantCmd (db : Db) (restaurantID : Int) :
    Option (Restaurant × List Visit × List WantToVisit × Db) :=
  match db.GetRestaurant restaurantID with
  | none => none
  | some restaurant =>
      let visits := db.GetVisitsByRestaurant restaurantID
      let entries := db.GetWantToVisitByRestaurant restaurantID
      some (restaurant, visits, entries, db.DeleteRestaurant restaurantID)

/-! ## Claims about the undo/redo command log (C1, C6) -/

/-- C1 counterexample.  The claim states that a failed undo leaves both
stacks exactly as they were before the attempt (the popped action being
restored).  In the source, `undoCmd` pops the action before the
repository call runs and the failure branch of `applyUndoResult` does
not push it back: starting from an undo stack holding exactly one
action, a failed undo leaves the undo stack empty instead of restoring
the single action. -/
theorem undo_failure_discards_action_counterexample :
    (AppUndoState.attemptUndo
      { screen := Screen.visits
        undoStack := [{ label := "visit saved" }]
        redoStack := []
        error := ""
        info := "" }
      (some "no such table: visits")).1.undoStack = [] ∧
    ([] : List UndoAction) ≠ [{ label := "visit saved" }] := by
  constructor
  · rfl
  · intro h
    exact absurd (congrArg List.length h) (by simp)

/-- C1 (amended): a failed undo or redo surfaces a transient error
message formed from the direction and the repository error, issues no
follow-up command (in particular the failed action is never retried
automatically), leaves the other stack untouched — but does NOT restore
the popped action: the attempted stack is left one element shorter, the
action is discarded. -/
theorem undoRedo_failure_surfaces_error_discards_action
    (m : AppUndoState) (e : String) :
    (m.undoStack ≠ [] →
      m.attemptUndo (some e) =
        ({ m with undoStack := m.undoStack.dropLast
                  error := "undo failed: " ++ e }, [])) ∧
    (m.redoStack ≠ [] →
      m.attemptRedo (some e) =
        ({ m with redoStack := m.redoStack.dropLast
                  error := "redo failed: " ++ e }, [])) := by
  constructor
  · intro h
    unfold AppUndoState.attemptUndo
    cases hl : m.undoStack.getLast? with
    | none => exact absurd (List.getLast?_eq_none_iff.mp hl) h
    | some a => rfl
  · intro h
    unfold AppUndoState.attemptRedo
    cases hl : m.redoStack.getLast? with
    | none => exact absurd (List.getLast?_eq_none_iff.mp hl) h
    | some a => rfl

/-- Witness for the amended C1 theorem at a one-action stack. -/
theorem undoRedo_failure_surfaces_error_discards_action_witness :
    (([{ label := "visit saved" }] : List UndoAction) ≠ [] ∧
      AppUndoState.attemptUndo
        { screen := Screen.visits
          undoStack := [{ label := "visit saved" }]
          redoStack := []
          error := ""
          info := "" }
        (some "boom") =
      ({ screen := Screen.visits
         undoStack := []
         redoStack := []
         error := "undo failed: boom"
         info := "" }, [])) := by
  refine ⟨by simp, ?_⟩
  have h := (undoRedo_failure_surfaces_error_discards_action
    { screen := Screen.visits
      undoStack := [{ label := "visit saved" }]
      redoStack := []
      error := ""
      info := "" } "boom").1 (by simp)
  simpa using h

/-- C6: pushing a new action through the normal mutation path appends it
to the undo stack and empties the redo stack; a successful undo moves
the popped action from the top of the undo stack to the top of the redo
stack, and a successful redo does the reverse. -/
theorem undoRedoLog_stack_discipline (m : AppUndoState) (a : UndoAction) :
    ((m.pushUndoAction a).redoStack = [] ∧
     (m.pushUndoAction a).undoStack = m.undoStack ++ [a]) ∧
    (m.undoStack.getLast? = some a →
      m.attemptUndo none =
        ({ m with undoStack := m.undoStack.dropLast
                  redoStack := m.redoStack ++ [a]
                  info := "Undid: " ++ a.label
                  error := "" },
         reloadCurrentTopLevelCmd m.screen)) ∧
    (m.redoStack.getLast? = some a →
      m.attemptRedo none =
        ({ m with redoStack := m.redoStack.dropLast
                  undoStack := m.undoStack ++ [a]
                  info := "Redid: " ++ a.label
                  error := "" },
         reloadCurrentTopLevelCmd m.screen)) := by
  refine ⟨⟨rfl, rfl⟩, ?_, ?_⟩
  · intro h
    unfold AppUndoState.attemptUndo
    rw [h]
    rfl
  · intro h
    unfold AppUndoState.attemptRedo
    rw [h]
    rfl

/-- Witness for the C6 theorem on singleton stacks. -/
theorem undoRedoLog_stack_discipline_witness :
    (([{ label := "visit deleted" }] : List UndoAction).getLast? =
        some { label := "visit deleted" } ∧
      AppUndoState.attemptUndo
        { screen := Screen.visits
          undoStack := [{ label := "visit deleted" }]
          redoStack := []
          error := ""
          info := "" } none =
      ({ screen := Screen.visits
         undoStack := []
         redoStack := [{ label := "visit deleted" }]
         info := "Undid: visit deleted"
         error := "" }, [LoadCmd.loadVisits])) := by
  refine ⟨by simp, ?_⟩
  have h := (undoRedoLog_stack_discipline
    { screen := Screen.visits
      undoStack := [{ label := "visit deleted" }]
      redoStack := []
      error := ""
      info := "" } { label := "visit deleted" }).2.1 (by simp)
  simpa using h

/-! ## Claim about the cross-screen reload policy (C9) -/

/-- Modelled from the spec: the screens whose Table Engine data a direct
mutation can affect (spec.md section 4.2, cross-screen reload policy; a
visit mutation changes the visit list and the restaurants screen's
visit-count/rating aggregates; a restaurant mutation changes the
restaurant list and the joined restaurant columns of the visit and
want-to-visit lists; saving a visit or want-to-visit entry may also
create a restaurant; deleting or converting a want-to-visit entry
touches only the want-to-visit list). -/
def affectedLoads (msg : MutationMsg) : List LoadCmd :=
  match msg with
  | .visitSaved => [.loadVisits, .loadRestaurants]
  | .restaurantSaved => [.loadRestaurants, .loadVisits, .loadWantToVisit]
  | .wantToVisitSaved => [.loadWantToVisit, .loadRestaurants]
  | .deleteVisit => [.loadVisits, .loadRestaurants]
  | .deleteRestaurant => [.loadRestaurants, .loadVisits, .loadWantToVisit]
  | .deleteWantToVisit => [.loadWantToVisit]
  | .convertToVisit => [.loadWantToVisit]

/-- C9 counterexample.  The claim states that mutations replayed via
undo/redo also reload every potentially-affected screen.  In the source
a successful undo issues only `reloadCurrentTopLevelCmd`: undoing a
visit insertion (which re-deletes the visit, changing both the visit
list and the restaurants screen's aggregates) while the restaurants
screen is active reloads the restaurants table only — the visits table
is not reloaded and goes stale. -/
theorem undo_reloads_only_current_screen_counterexample :
    (AppUndoState.attemptUndo
      { screen := Screen.restaurants
        undoStack := [{ label := "visit saved" }]
        redoStack := []
        error := ""
        info := "" } none).2 = [LoadCmd.loadRestaurants] ∧
    LoadCmd.loadVisits ∉
      (AppUndoState.attemptUndo
        { screen := Screen.restaurants
          undoStack := [{ label := "visit saved" }]
          redoStack := []
          error := ""
          info := "" } none).2 := by
  constructor
  · rfl
  · intro h
    rw [show (AppUndoState.attemptUndo
      { screen := Screen.restaurants
        undoStack := [{ label := "visit saved" }]
        redoStack := []
        error := ""
        info := "" } none).2 = [LoadCmd.loadRestaurants] from rfl] at h
    simp at h

/-- C9 (amended): every DIRECT mutation message triggers a reload batch
covering every potentially-affected screen's table, but a mutation
replayed via undo or redo triggers only a reload of the currently-active
top-level screen's table (`reloadCurrentTopLevelCmd`), regardless of
which screens the replayed mutation affects. -/
theorem mutation_reload_policy (m : AppUndoState) :
    (∀ msg : MutationMsg, ∀ l ∈ affectedLoads msg, l ∈ mutationReloads msg) ∧
    (m.undoStack ≠ [] →
      (m.attemptUndo none).2 = reloadCurrentTopLevelCmd m.screen) ∧
    (m.redoStack ≠ [] →
      (m.attemptRedo none).2 = reloadCurrentTopLevelCmd m.screen) ∧
    (∀ s : Screen, (reloadCurrentTopLevelCmd s).length = 1) := by
  refine ⟨?_, ?_, ?_, ?_⟩
  · intro msg l hl
    cases msg <;> simp only [affectedLoads, List.mem_cons, List.not_mem_nil,
      or_false] at hl <;> simp [mutationReloads, hl] <;> tauto
  · intro h
    unfold AppUndoState.attemptUndo
    cases hl : m.undoStack.getLast? with
    | none => exact absurd (List.getLast?_eq_none_iff.mp hl) h
    | some a => rfl
  · intro h
    unfold AppUndoState.attemptRedo
    cases hl : m.redoStack.getLast? with
    | none => exact absurd (List.getLast?_eq_none_iff.mp hl) h
    | some a => rfl
  · intro s
    cases s <;> rfl

/-- Witness for the amended C9 theorem. -/
theorem mutation_reload_policy_witness :
    (([{ label := "visit saved" }] : List UndoAction) ≠ [] ∧
      (AppUndoState.attemptUndo
        { screen := Screen.restaurants
          undoStack := [{ label := "visit saved" }]
          redoStack := []
          error := ""
          info := "" } none).2 =
        reloadCurrentTopLevelCmd Screen.restaurants) := by
  refine ⟨by simp, ?_⟩
  exact (mutation_reload_policy
    { screen := Screen.restaurants
      undoStack := [{ label := "visit saved" }]
      redoStack := []
      error := ""
      info := "" }).2.1 (by simp)

/-! ## Claim about the debounced search pipeline (C2) -/

theorem VisitFormModel.updateAutocompleteResult_stale (m : VisitFormModel)
    (msg : AutocompleteResultMsg) (h : msg.seq ≠ m.searchSeq) :
    m.updateAutocompleteResult msg = m := by
  unfold VisitFormModel.updateAutocompleteResult
  rw [if_neg h]

theorem VisitFormModel.updateDebounceTick_stale (hc : Bool) (m : VisitFormModel)
    (seq : Int) (h : seq ≠ m.searchSeq) :
    m.updateDebounceTick hc seq = (m, none) := by
  unfold VisitFormModel.updateDebounceTick
  rw [if_neg]
  intro hcontra
  exact h hcontra.1

theorem WantToVisitFormModel.wtvAutocompleteResult_stale
    (m : WantToVisitFormModel) (msg : AutocompleteResultMsg)
    (h : msg.seq ≠ m.searchSeq) :
    m.updateAutocompleteResult msg = m := by
  unfold WantToVisitFormModel.updateAutocompleteResult
  rw [if_neg h]

theorem WantToVisitFormModel.wtvDebounceTick_stale (hc : Bool)
    (m : WantToVisitFormModel) (seq : Int) (h : seq ≠ m.searchSeq) :
    m.updateDebounceTick hc seq = (m, none) := by
  unfold WantToVisitFormModel.updateDebounceTick
  rw [if_neg]
  intro hcontra
  exact h hcontra.1

theorem VisitFormModel.updateAutocompleteResult_searchSeq (m : VisitFormModel)
    (msg : AutocompleteResultMsg) :
    (m.updateAutocompleteResult msg).searchSeq = m.searchSeq := by
  unfold VisitFormModel.updateAutocompleteResult
  split
  · cases msg.err <;> rfl
  · rfl

/-- Projections of a restaurant-name keystroke whose query meets the
two-byte threshold: a fresh sequence is minted and the debounce tick is
scheduled carrying it; focus, non-emptiness of the inputs and the
remembered restaurant name are preserved. -/
theorem VisitFormModel.updateTypedKey_long_fields (m : VisitFormModel) (q : String)
    (h0 : m.focusedField = 0) (hne : m.inputs ≠ []) (hq : q.utf8ByteSize ≥ 2) :
    (m.updateTypedKey true q).1.searchSeq = m.searchSeq + 1 ∧
    (m.updateTypedKey true q).2 = some (m.searchSeq + 1) ∧
    (m.updateTypedKey true q).1.focusedField = 0 ∧
    (m.updateTypedKey true q).1.inputs ≠ [] ∧
    (m.updateTypedKey true q).1.restaurantName = m.restaurantName := by
  cases hm : m.inputs with
  | nil => exact absurd hm hne
  | cons a t =>
      simp only [VisitFormModel.updateTypedKey, hm, h0, List.set]
      split <;> simp [hq]

/-- C2: in both searchable forms, a debounce-timer fire or a lookup
completion (success or error) is applied only when its carried sequence
equals the session's current sequence; for three requests minted with
sequences 1, 2, 3 and completing in the order 3, 1, 2, only the result
tagged 3 is ever applied to the dropdown state, and the stale messages
(including a stale lookup error) are dropped without surfacing
anything. -/
theorem searchPipeline_sequence_guard :
    (∀ (m : VisitFormModel) (msg : AutocompleteResultMsg),
        msg.seq ≠ m.searchSeq → m.updateAutocompleteResult msg = m) ∧
    (∀ (hc : Bool) (m : VisitFormModel) (seq : Int),
        seq ≠ m.searchSeq → m.updateDebounceTick hc seq = (m, none)) ∧
    (∀ (m : WantToVisitFormModel) (msg : AutocompleteResultMsg),
        msg.seq ≠ m.searchSeq → m.updateAutocompleteResult msg = m) ∧
    (∀ (hc : Bool) (m : WantToVisitFormModel) (seq : Int),
        seq ≠ m.searchSeq → m.updateDebounceTick hc seq = (m, none)) ∧
    (∀ (m : VisitFormModel) (q1 q2 q3 : String) (r1 r2 r3 : List Suggestion)
        (e1 e2 : Option String),
        m.searchSeq = 0 → m.focusedField = 0 → m.inputs ≠ [] →
        q1.utf8ByteSize ≥ 2 → q2.utf8ByteSize ≥ 2 → q3.utf8ByteSize ≥ 2 →
        (m.updateTypedKey true q1).2 = some 1 ∧
        ((m.updateTypedKey true q1).1.updateTypedKey true q2).2 = some 2 ∧
        (((m.updateTypedKey true q1).1.updateTypedKey true q2).1.updateTypedKey
          true q3).2 = some 3 ∧
        (let m3 := (((m.updateTypedKey true q1).1.updateTypedKey true
            q2).1.updateTypedKey true q3).1
         let a := m3.updateAutocompleteResult
            { seq := 3, results := r3, err := none }
         let b := a.updateAutocompleteResult
            { seq := 1, results := r1, err := e1 }
         let c := b.updateAutocompleteResult
            { seq := 2, results := r2, err := e2 }
         a.searchResults = r3 ∧ a.showDropdown = decide (r3.length > 0) ∧
           a.error = "" ∧ b = a ∧ c = a)) := by
  refine ⟨VisitFormModel.updateAutocompleteResult_stale,
    VisitFormModel.updateDebounceTick_stale,
    WantToVisitFormModel.wtvAutocompleteResult_stale,
    WantToVisitFormModel.wtvDebounceTick_stale, ?_⟩
  intro m q1 q2 q3 r1 r2 r3 e1 e2 hseq h0 hne hq1 hq2 hq3
  obtain ⟨s1, t1, f1, n1, _⟩ := m.updateTypedKey_long_fields q1 h0 hne hq1
  obtain ⟨s2, t2, f2, n2, _⟩ :=
    (m.updateTypedKey true q1).1.updateTypedKey_long_fields q2 f1 n1 hq2
  obtain ⟨s3, t3, _, _, _⟩ :=
    ((m.updateTypedKey true q1).1.updateTypedKey true
      q2).1.updateTypedKey_long_fields q3 f2 n2 hq3
  have hs1 : (m.updateTypedKey true q1).1.searchSeq = 1 := by rw [s1, hseq]; decide
  have hs2 : ((m.updateTypedKey true q1).1.updateTypedKey true q2).1.searchSeq = 2 := by
    rw [s2, hs1]; decide
  have hs3 : (((m.updateTypedKey true q1).1.updateTypedKey true
      q2).1.updateTypedKey true q3).1.searchSeq = 3 := by
    rw [s3, hs2]; decide
  refine ⟨by rw [t1, hseq]; decide, by rw [t2, hs1]; decide,
    by rw [t3, hs2]; decide, ?_, ?_, ?_, ?_, ?_⟩
  · show (VisitFormModel.updateAutocompleteResult _ _).searchResults = r3
    unfold VisitFormModel.updateAutocompleteResult
    rw [if_pos (by rw [hs3])]
  · show (VisitFormModel.updateAutocompleteResult _ _).showDropdown = _
    unfold VisitFormModel.updateAutocompleteResult
    rw [if_pos (by rw [hs3])]
  · show (VisitFormModel.updateAutocompleteResult _ _).error = ""
    unfold VisitFormModel.updateAutocompleteResult
    rw [if_pos (by rw [hs3])]
  · apply VisitFormModel.updateAutocompleteResult_stale
    rw [VisitFormModel.updateAutocompleteResult_searchSeq, hs3]
    simp
  · rw [VisitFormModel.updateAutocompleteResult_stale]
    · apply VisitFormModel.updateAutocompleteResult_stale
      rw [VisitFormModel.updateAutocompleteResult_searchSeq, hs3]
      simp
    · rw [VisitFormModel.updateAutocompleteResult_searchSeq,
        VisitFormModel.updateAutocompleteResult_searchSeq, hs3]
      simp

/-- Witness for the C2 theorem: a stale error completion (sequence 1
against current sequence 3) is dropped without any state change. -/
theorem searchPipeline_sequence_guard_witness :
    ((1 : Int) ≠ (3 : Int)) ∧
    VisitFormModel.updateAutocompleteResult
      { visitID := 0, restaurantID := 0, focusedField := 0
        inputs := ["Luc", "", "", "", ""], restaurantName := "", error := ""
        searchSeq := 3, searchResults := [], searchCursor := 0
        showDropdown := false, searching := true }
      { seq := 1, results := [], err := some "timeout" } =
      { visitID := 0, restaurantID := 0, focusedField := 0
        inputs := ["Luc", "", "", "", ""], restaurantName := "", error := ""
        searchSeq := 3, searchResults := [], searchCursor := 0
        showDropdown := false, searching := true } := by
  exact ⟨by decide, searchPipeline_sequence_guard.1 _ _ (by decide)⟩

/-! ## Claim about stale restaurant identity reset (C10) -/

theorem VisitFormModel.updateTypedKey_resets_staleID (hc : Bool)
    (m : VisitFormModel) (v : String) (h0 : m.focusedField = 0)
    (hne : m.inputs ≠ []) (hv : trimSpace v ≠ m.restaurantName) :
    (m.updateTypedKey hc v).1.restaurantID = 0 := by
  cases hm : m.inputs with
  | nil => exact absurd hm hne
  | cons a t =>
      simp only [VisitFormModel.updateTypedKey, hm, h0, List.set, List.getD_cons_zero, hv]
      simp only [ne_eq, not_false_eq_true, and_true, if_true, true_and]
      split_ifs <;> rfl

theorem WantToVisitFormModel.wtvTypedKey_resets_staleID (hc : Bool)
    (m : WantToVisitFormModel) (v : String) (h0 : m.focusedField = 0)
    (hne : m.inputs ≠ []) (hv : trimSpace v ≠ m.restaurantName) :
    (m.updateTypedKey hc v).1.restaurantID = 0 := by
  cases hm : m.inputs with
  | nil => exact absurd hm hne
  | cons a t =>
      simp only [WantToVisitFormModel.updateTypedKey, hm, h0, List.set, List.getD_cons_zero, hv]
      simp only [ne_eq, not_false_eq_true, and_true, if_true, true_and]
      split_ifs <;> rfl

theorem mem_of_mem_SearchRestaurants {db : Db} {q : String} {r : Restaurant}
    (h : r ∈ db.SearchRestaurants q) : r ∈ db.restaurants := by
  unfold Db.SearchRestaurants at h
  have h2 := List.mem_of_mem_take h
  rw [List.mem_mergeSort] at h2
  exact (List.mem_filter.mp h2).1

/-- C10: in both searchable edit forms, a keystroke on the
restaurant-name field whose trimmed text differs from the selected or
prefilled restaurant name resets the stored restaurant identity to 0,
and the save path with identity 0 resolves the typed name afresh: it
either reuses the identity of a stored restaurant whose normalised name
matches the typed name exactly (case-insensitively), or inserts a new
restaurant row carrying the typed name, never the stale identity. -/
theorem staleRestaurantID_reset_then_fresh_resolution :
    (∀ (hc : Bool) (m : VisitFormModel) (v : String),
        m.focusedField = 0 → m.inputs ≠ [] → trimSpace v ≠ m.restaurantName →
        (m.updateTypedKey hc v).1.restaurantID = 0) ∧
    (∀ (hc : Bool) (m : WantToVisitFormModel) (v : String),
        m.focusedField = 0 → m.inputs ≠ [] → trimSpace v ≠ m.restaurantName →
        (m.updateTypedKey hc v).1.restaurantID = 0) ∧
    (∀ (db : Db) (name : String),
        ((resolveRestaurantID db 0 name).1 = db ∧
          ∃ r ∈ db.restaurants, r.id = (resolveRestaurantID db 0 name).2 ∧
            lowerStr (trimSpace r.name) = lowerStr (trimSpace name)) ∨
        ((resolveRestaurantID db 0 name).2 = db.nextRestaurantId ∧
          (resolveRestaurantID db 0 name).1.restaurants =
            db.restaurants ++
              [{ id := db.nextRestaurantId, name := name, address := ""
                 city := "", neighborhood := "", cuisine := "", priceRange := ""
                 latitude := none, longitude := none, placeID := "" }])) := by
  refine ⟨fun hc m v h0 hne hv => m.updateTypedKey_resets_staleID hc v h0 hne hv,
    fun hc m v h0 hne hv => m.wtvTypedKey_resets_staleID hc v h0 hne hv, ?_⟩
  intro db name
  unfold resolveRestaurantID
  rw [if_neg (by decide)]
  cases hf : findExactRestaurantID (db.SearchRestaurants name) name with
  | some existingID =>
      left
      have hf2 : (List.find?
          (fun r => lowerStr (trimSpace r.name) == lowerStr (trimSpace name))
          (db.SearchRestaurants name)).map (fun r => r.id) = some existingID := hf
      cases hfind : List.find?
          (fun r => lowerStr (trimSpace r.name) == lowerStr (trimSpace name))
          (db.SearchRestaurants name) with
      | none =>
          rw [hfind] at hf2
          exact absurd hf2 (by simp)
      | some r =>
          rw [hfind] at hf2
          have hid : r.id = existingID := by simpa using hf2
          subst hid
          refine ⟨rfl, r, mem_of_mem_SearchRestaurants (List.mem_of_find?_eq_some hfind),
            rfl, ?_⟩
          have hp := List.find?_some hfind
          exact eq_of_beq hp
  | none =>
      right
      exact ⟨rfl, rfl⟩

/-- Witness for the C10 theorem: with selected name "Lucia" and typed
text diverging to "Lucian", the stored identity 7 is reset to 0. -/
theorem staleRestaurantID_reset_then_fresh_resolution_witness :
    ((0 : Nat) = 0 ∧ (["Lucia", "", "", "", ""] : List String) ≠ [] ∧
      trimSpace "Lucian" ≠ "Lucia") ∧
    (VisitFormModel.updateTypedKey false
      { visitID := 0, restaurantID := 7, focusedField := 0
        inputs := ["Lucia", "", "", "", ""], restaurantName := "Lucia"
        error := "", searchSeq := 0, searchResults := [], searchCursor := 0
        showDropdown := false, searching := false }
      "Lucian").1.restaurantID = 0 := by
  refine ⟨⟨rfl, by simp, by decide⟩, ?_⟩
  exact staleRestaurantID_reset_then_fresh_resolution.1 false
    { visitID := 0, restaurantID := 7, focusedField := 0
      inputs := ["Lucia", "", "", "", ""], restaurantName := "Lucia"
      error := "", searchSeq := 0, searchResults := [], searchCursor := 0
      showDropdown := false, searching := false }
    "Lucian" rfl (by simp) (by decide)

/-! ## Claim about empty-table movement safety (C5) -/

/-- C5: on an empty record set the rebuilt `visible` list is empty with
cursor and offset pinned to 0, and on the empty visits model `MoveDown`,
`MoveUp`, `JumpToTop`, `JumpToBottom` and `HalfPageUp` are no-ops
leaving cursor and offset at 0 — but `HalfPageDown`, for every
non-negative `pageSize`, sets the cursor to `-1` (the unguarded
`cursor = len(rows) - 1` clamp), contradicting the claimed pin to 0.
The source's own `clampCursor` re-pins the cursor to 0 on the next
rebuild and `JumpToBottom` carries exactly the `len > 0` guard that
`HalfPageDown` lacks, so the spec is the evident intent and the missing
guard a slip in the code. -/
theorem emptyTable_movement_halfPageDown_bug (pageSize : Int)
    (hps : 0 ≤ pageSize) :
    (∀ (gv : VisitRow → String → String) (rid : VisitRow → Int)
        (m : TableState VisitRow), m.allRows = [] →
        (m.rebuild gv rid).rows = [] ∧ (m.rebuild gv rid).cursor = 0 ∧
          (m.rebuild gv rid).offset = 0) ∧
    (newVisitsModel []).moveDown = newVisitsModel [] ∧
    (newVisitsModel []).moveUp = newVisitsModel [] ∧
    (newVisitsModel []).jumpToTop = newVisitsModel [] ∧
    (newVisitsModel []).jumpToBottom = newVisitsModel [] ∧
    ((newVisitsModel []).halfPageUp pageSize).cursor = 0 ∧
    ((newVisitsModel []).halfPageUp pageSize).offset = 0 ∧
    ((newVisitsModel []).halfPageDown pageSize).cursor = -1 ∧
    ((newVisitsModel []).halfPageDown pageSize).offset = 0 := by
  have ht : 0 ≤ Int.tdiv pageSize 2 := Int.tdiv_nonneg hps (by decide)
  refine ⟨?_, rfl, rfl, rfl, rfl, ?_, ?_, ?_, ?_⟩
  · intro gv rid m hm
    unfold TableState.rebuild sliceStable
    rw [hm]
    simp only [List.filter_nil, ite_self, List.mergeSort_nil]
    unfold TableState.clampCursor
    simp
  · simp only [TableState.halfPageUp, goDiv, newVisitsModel]
    split_ifs <;> simp <;> omega
  · simp only [TableState.halfPageUp, goDiv, newVisitsModel]
    split_ifs <;> simp
  · simp only [TableState.halfPageDown, goDiv, newVisitsModel]
    split_ifs <;> simp_all
  · simp only [TableState.halfPageDown, goDiv, newVisitsModel]
    split_ifs <;> simp_all

/-- Witness for the C5 theorem at the realistic page size 24. -/
theorem emptyTable_movement_halfPageDown_bug_witness :
    (0 : Int) ≤ 24 ∧
    ((newVisitsModel []).halfPageDown 24).cursor = -1 ∧
    ((newVisitsModel []).halfPageDown 24).offset = 0 := by
  refine ⟨by decide, ?_, ?_⟩
  · exact (emptyTable_movement_halfPageDown_bug 24 (by decide)).2.2.2.2.2.2.2.1
  · exact (emptyTable_movement_halfPageDown_bug 24 (by decide)).2.2.2.2.2.2.2.2

/-! ## Structural lemmas about `clampCursor` and `rebuild` -/

namespace TableState

variable {R : Type}

@[simp] theorem clampCursor_rows (m : TableState R) : m.clampCursor.rows = m.rows := by
  unfold clampCursor; split <;> rfl

@[simp] theorem clampCursor_allRows (m : TableState R) :
    m.clampCursor.allRows = m.allRows := by
  unfold clampCursor; split <;> rfl

@[simp] theorem clampCursor_viewportHeight (m : TableState R) :
    m.clampCursor.viewportHeight = m.viewportHeight := by
  unfold clampCursor; split <;> rfl

@[simp] theorem clampCursor_columns (m : TableState R) :
    m.clampCursor.columns = m.columns := by
  unfold clampCursor; split <;> rfl

@[simp] theorem clampCursor_activeColumn (m : TableState R) :
    m.clampCursor.activeColumn = m.activeColumn := by
  unfold clampCursor; split <;> rfl

@[simp] theorem clampCursor_sortKey (m : TableState R) :
    m.clampCursor.sortKey = m.sortKey := by
  unfold clampCursor; split <;> rfl

@[simp] theorem clampCursor_sortDesc (m : TableState R) :
    m.clampCursor.sortDesc = m.sortDesc := by
  unfold clampCursor; split <;> rfl

@[simp] theorem clampCursor_filterKey (m : TableState R) :
    m.clampCursor.filterKey = m.filterKey := by
  unfold clampCursor; split <;> rfl

@[simp] theorem clampCursor_filterValue (m : TableState R) :
    m.clampCursor.filterValue = m.filterValue := by
  unfold clampCursor; split <;> rfl

/-- The filtered stage of `rebuild`, named for the statements below. -/
def filteredRows (getValue : R → String → String) (m : TableState R) : List R :=
  if m.filterKey ≠ "" ∧ m.filterValue ≠ "" then
    m.allRows.filter (rebuildFilterPred getValue m.filterKey m.filterValue)
  else m.allRows

theorem filteredRows_congr (getValue : R → String → String)
    {m m2 : TableState R} (h1 : m2.allRows = m.allRows)
    (h2 : m2.filterKey = m.filterKey) (h3 : m2.filterValue = m.filterValue) :
    filteredRows getValue m2 = filteredRows getValue m := by
  unfold filteredRows
  rw [h1, h2, h3]

theorem rebuild_rows (getValue : R → String → String) (rowID : R → Int)
    (m : TableState R) :
    (m.rebuild getValue rowID).rows =
      if m.sortKey ≠ "" then
        sliceStable (filteredRows getValue m)
          (rebuildLess getValue rowID m.sortKey m.sortDesc)
      else filteredRows getValue m := by
  unfold rebuild filteredRows
  rw [clampCursor_rows]

theorem rebuild_rows_length (getValue : R → String → String) (rowID : R → Int)
    (m : TableState R) :
    (m.rebuild getValue rowID).rows.length = (filteredRows getValue m).length := by
  rw [rebuild_rows]
  split
  · exact List.length_mergeSort _
  · rfl

@[simp] theorem rebuild_allRows (getValue : R → String → String) (rowID : R → Int)
    (m : TableState R) : (m.rebuild getValue rowID).allRows = m.allRows := by
  unfold rebuild; rw [clampCursor_allRows]

@[simp] theorem rebuild_viewportHeight (getValue : R → String → String)
    (rowID : R → Int) (m : TableState R) :
    (m.rebuild getValue rowID).viewportHeight = m.viewportHeight := by
  unfold rebuild; rw [clampCursor_viewportHeight]

@[simp] theorem rebuild_columns (getValue : R → String → String) (rowID : R → Int)
    (m : TableState R) : (m.rebuild getValue rowID).columns = m.columns := by
  unfold rebuild; rw [clampCursor_columns]

@[simp] theorem rebuild_activeColumn (getValue : R → String → String)
    (rowID : R → Int) (m : TableState R) :
    (m.rebuild getValue rowID).activeColumn = m.activeColumn := by
  unfold rebuild; rw [clampCursor_activeColumn]

@[simp] theorem rebuild_sortKey (getValue : R → String → String) (rowID : R → Int)
    (m : TableState R) : (m.rebuild getValue rowID).sortKey = m.sortKey := by
  unfold rebuild; rw [clampCursor_sortKey]

@[simp] theorem rebuild_sortDesc (getValue : R → String → String) (rowID : R → Int)
    (m : TableState R) : (m.rebuild getValue rowID).sortDesc = m.sortDesc := by
  unfold rebuild; rw [clampCursor_sortDesc]

@[simp] theorem rebuild_filterKey (getValue : R → String → String) (rowID : R → Int)
    (m : TableState R) : (m.rebuild getValue rowID).filterKey = m.filterKey := by
  unfold rebuild; rw [clampCursor_filterKey]

@[simp] theorem rebuild_filterValue (getValue : R → String → String)
    (rowID : R → Int) (m : TableState R) :
    (m.rebuild getValue rowID).filterValue = m.filterValue := by
  unfold rebuild; rw [clampCursor_filterValue]

/-- The cursor/offset well-formedness `clampCursor` establishes:
`cursorIndex` within bounds (or pinned to 0 on empty) and
`viewportOffset ≤ cursorIndex`. -/
def clampedInv (m : TableState R) : Prop :=
  (m.rows.length = 0 → m.cursor = 0 ∧ m.offset = 0) ∧
  (m.rows.length ≠ 0 →
    0 ≤ m.cursor ∧ m.cursor < (m.rows.length : Int) ∧ m.offset ≤ m.cursor)

theorem clampedInv_congr {m m2 : TableState R} (h : clampedInv m)
    (hlen : m2.rows.length = m.rows.length) (hc : m2.cursor = m.cursor)
    (ho : m2.offset = m.offset) : clampedInv m2 := by
  unfold clampedInv at h ⊢
  rw [hlen, hc, ho]
  exact h

theorem clampCursor_clampedInv (m : TableState R) : clampedInv m.clampCursor := by
  unfold clampCursor clampedInv
  by_cases hz : m.rows.length = 0
  · rw [if_pos hz]
    exact ⟨fun _ => ⟨rfl, rfl⟩, fun h => absurd hz h⟩
  · rw [if_neg hz]
    refine ⟨fun h => absurd h hz, fun _ => ?_⟩
    simp only []
    split_ifs <;> constructor <;> omega

theorem clampCursor_cursor_of_inv {m : TableState R} (h : clampedInv m) :
    m.clampCursor.cursor = m.cursor ∧ m.clampCursor.offset = m.offset := by
  unfold clampCursor
  by_cases hz : m.rows.length = 0
  · obtain ⟨hc, ho⟩ := h.1 hz
    rw [if_pos hz]
    exact ⟨hc.symm, ho.symm⟩
  · obtain ⟨hc0, hc1, ho⟩ := h.2 hz
    rw [if_neg hz]
    simp only []
    split_ifs <;> constructor <;> first | rfl | omega

theorem rebuild_clampedInv (getValue : R → String → String) (rowID : R → Int)
    (m : TableState R) : clampedInv (m.rebuild getValue rowID) := by
  unfold rebuild
  exact clampCursor_clampedInv _

/-- `rebuild` leaves an already-clamped cursor and offset unchanged when
the derived row set keeps its length. -/
theorem rebuild_cursor_of_inv (getValue : R → String → String) (rowID : R → Int)
    {m : TableState R} (hinv : clampedInv m)
    (hlen : (filteredRows getValue m).length = m.rows.length) :
    (m.rebuild getValue rowID).cursor = m.cursor ∧
    (m.rebuild getValue rowID).offset = m.offset := by
  unfold rebuild
  refine clampCursor_cursor_of_inv (clampedInv_congr hinv ?_ rfl rfl)
  show (if m.sortKey ≠ "" then
      sliceStable (filteredRows getValue m)
        (rebuildLess getValue rowID m.sortKey m.sortDesc)
    else filteredRows getValue m).length = m.rows.length
  split
  · unfold sliceStable
    rw [List.length_mergeSort]
    exact hlen
  · exact hlen

end TableState

/-! ## Claim about the sort cycle (C8) -/

theorem TableState.ext_fields {R : Type} {m1 m2 : TableState R}
    (h1 : m1.allRows = m2.allRows) (h2 : m1.rows = m2.rows)
    (h3 : m1.cursor = m2.cursor) (h4 : m1.offset = m2.offset)
    (h5 : m1.viewportHeight = m2.viewportHeight)
    (h6 : m1.columns = m2.columns) (h7 : m1.activeColumn = m2.activeColumn)
    (h8 : m1.sortKey = m2.sortKey) (h9 : m1.sortDesc = m2.sortDesc)
    (h10 : m1.filterKey = m2.filterKey) (h11 : m1.filterValue = m2.filterValue) :
    m1 = m2 := by
  cases m1; cases m2
  simp_all

/-- `rebuild` applied to a state agreeing with a well-formed `m` on the
filter inputs and cursor data keeps the cursor, offset, row count and
static fields of `m`. -/
theorem TableState.rebuild_preserves_static {R : Type}
    (gv : R → String → String) (rid : R → Int) {m m0 : TableState R}
    (hinv : m.clampedInv) (hrows : m.rows = TableState.filteredRows gv m)
    (hall : m0.allRows = m.allRows) (hfk : m0.filterKey = m.filterKey)
    (hfv : m0.filterValue = m.filterValue)
    (hlen : m0.rows.length = m.rows.length)
    (hc : m0.cursor = m.cursor) (ho : m0.offset = m.offset) :
    (m0.rebuild gv rid).cursor = m.cursor ∧
    (m0.rebuild gv rid).offset = m.offset ∧
    (m0.rebuild gv rid).rows.length = m.rows.length ∧
    (m0.rebuild gv rid).allRows = m.allRows ∧
    (m0.rebuild gv rid).filterKey = m.filterKey ∧
    (m0.rebuild gv rid).filterValue = m.filterValue := by
  have hf0 : TableState.filteredRows gv m0 = TableState.filteredRows gv m :=
    TableState.filteredRows_congr gv hall hfk hfv
  have hinv0 : m0.clampedInv := TableState.clampedInv_congr hinv hlen hc ho
  have hlen0 : (TableState.filteredRows gv m0).length = m0.rows.length := by
    rw [hf0, hlen]
    conv_rhs => rw [hrows]
  obtain ⟨hcu, hof⟩ := TableState.rebuild_cursor_of_inv gv rid hinv0 hlen0
  refine ⟨by rw [hcu, hc], by rw [hof, ho], ?_,
    by rw [TableState.rebuild_allRows, hall],
    by rw [TableState.rebuild_filterKey, hfk],
    by rw [TableState.rebuild_filterValue, hfv]⟩
  rw [TableState.rebuild_rows_length, hf0]
  conv_rhs => rw [hrows]

/-- C8: from a well-formed no-sort baseline, `cycleSort` on the active
column cycles not-sorted-by-this-key → ascending → descending →
cleared: the three invocations return the ascending, descending and
cleared status messages built from the column label, and the third
returns the table state exactly to the baseline. -/
theorem cycleSort_three_cycle {R : Type} (gv : R → String → String)
    (rid : R → Int) (m : TableState R) (hfix : m.rebuild gv rid = m)
    (hkey : m.sortKey = "") (hdesc : m.sortDesc = false)
    (hak : (m.columns.getD m.activeColumn default).key ≠ "") :
    (m.cycleSortActiveColumn gv rid).2 =
      "Sorted " ++ upperStr (m.columns.getD m.activeColumn default).label ++
        " ascending" ∧
    ((m.cycleSortActiveColumn gv rid).1.cycleSortActiveColumn gv rid).2 =
      "Sorted " ++ upperStr (m.columns.getD m.activeColumn default).label ++
        " descending" ∧
    (((m.cycleSortActiveColumn gv rid).1.cycleSortActiveColumn gv
        rid).1.cycleSortActiveColumn gv rid).2 = "Sorting cleared" ∧
    (((m.cycleSortActiveColumn gv rid).1.cycleSortActiveColumn gv
        rid).1.cycleSortActiveColumn gv rid).1 = m := by
  have hinv : m.clampedInv := by
    rw [← hfix]; exact TableState.rebuild_clampedInv gv rid m
  have hrows : m.rows = TableState.filteredRows gv m := by
    conv_lhs => rw [← hfix]
    rw [TableState.rebuild_rows, if_neg (by simp [hkey])]
  have hc1 : m.sortKey ≠ (m.columns.getD m.activeColumn default).key := by
    rw [hkey]; exact fun h => hak h.symm
  have e1 : m.cycleSortActiveColumn gv rid =
      (TableState.rebuild gv rid
        { m with sortKey := (m.columns.getD m.activeColumn default).key
                 sortDesc := false },
       "Sorted " ++ upperStr (m.columns.getD m.activeColumn default).label ++
         " ascending") := by
    unfold TableState.cycleSortActiveColumn
    rw [if_pos hc1]
  have s1 := @TableState.rebuild_preserves_static R gv rid m
    { m with sortKey := (m.columns.getD m.activeColumn default).key
             sortDesc := false }
    hinv hrows rfl rfl rfl rfl rfl rfl
  have e2 : ((m.cycleSortActiveColumn gv rid).1.cycleSortActiveColumn gv rid) =
      (TableState.rebuild gv rid
        { (m.cycleSortActiveColumn gv rid).1 with sortDesc := true },
       "Sorted " ++ upperStr (m.columns.getD m.activeColumn default).label ++
         " descending") := by
    rw [e1]
    unfold TableState.cycleSortActiveColumn
    rw [if_neg (by simp), if_pos (by simp)]
    simp
  have s2 := @TableState.rebuild_preserves_static R gv rid m
    { (m.cycleSortActiveColumn gv rid).1 with sortDesc := true }
    hinv hrows (by rw [e1]; exact s1.2.2.2.1) (by rw [e1]; exact s1.2.2.2.2.1)
    (by rw [e1]; exact s1.2.2.2.2.2) (by rw [e1]; exact s1.2.2.1)
    (by rw [e1]; exact s1.1) (by rw [e1]; exact s1.2.1)
  have e3 : ((m.cycleSortActiveColumn gv rid).1.cycleSortActiveColumn gv
        rid).1.cycleSortActiveColumn gv rid =
      (TableState.rebuild gv rid
        { ((m.cycleSortActiveColumn gv rid).1.cycleSortActiveColumn gv rid).1 with
            sortKey := "", sortDesc := false },
       "Sorting cleared") := by
    rw [e2, e1]
    unfold TableState.cycleSortActiveColumn
    rw [if_neg (by simp), if_neg (by simp)]
  have s3 := @TableState.rebuild_preserves_static R gv rid m
    { ((m.cycleSortActiveColumn gv rid).1.cycleSortActiveColumn gv
        rid).1 with sortKey := "", sortDesc := false }
    hinv hrows (by rw [e2, e1]; rw [e1] at s2; exact s2.2.2.2.1)
    (by rw [e2, e1]; rw [e1] at s2; exact s2.2.2.2.2.1)
    (by rw [e2, e1]; rw [e1] at s2; exact s2.2.2.2.2.2)
    (by rw [e2, e1]; rw [e1] at s2; exact s2.2.2.1)
    (by rw [e2, e1]; rw [e1] at s2; exact s2.1)
    (by rw [e2, e1]; rw [e1] at s2; exact s2.2.1)
  have s2r := s2
  rw [e1] at s2r
  refine ⟨by rw [e1], by rw [e2], by rw [e3], ?_⟩
  rw [e3]
  rw [e2, e1] at s3 ⊢
  apply TableState.ext_fields
  · exact s3.2.2.2.1
  · rw [TableState.rebuild_rows, if_neg (by simp)]
    rw [hrows]
    exact TableState.filteredRows_congr gv s2r.2.2.2.1 s2r.2.2.2.2.1
      s2r.2.2.2.2.2
  · exact s3.1
  · exact s3.2.1
  · simp
  · simp
  · simp
  · rw [TableState.rebuild_sortKey]
    exact hkey.symm
  · rw [TableState.rebuild_sortDesc]
    exact hdesc.symm
  · exact s3.2.2.2.2.1
  · exact s3.2.2.2.2.2

/-- Witness for the C8 theorem on the freshly-constructed (no-sort,
no-filter) visits model. -/
theorem cycleSort_three_cycle_witness :
    TableState.rebuild visitGetValue (fun r => r.id) (newVisitsModel []) =
      newVisitsModel [] ∧
    (newVisitsModel []).sortKey = "" ∧
    (newVisitsModel []).sortDesc = false ∧
    ((newVisitsModel []).columns.getD (newVisitsModel
      []).activeColumn default).key ≠ "" ∧
    ((((newVisitsModel []).cycleSortActiveColumn visitGetValue
        (fun r => r.id)).1.cycleSortActiveColumn visitGetValue
        (fun r => r.id)).1.cycleSortActiveColumn visitGetValue
        (fun r => r.id)).1 = newVisitsModel [] := by
  refine ⟨by decide, rfl, rfl, by decide, ?_⟩
  exact (cycleSort_three_cycle visitGetValue (fun r => r.id) (newVisitsModel [])
    (by decide) rfl rfl (by decide)).2.2.2

/-! ## Claim about hiding the last visible column (C7) -/

namespace TableState

variable {R : Type}

theorem nextColumnAux_lt (cols : List Column) (start : Nat)
    (hlen : 0 < cols.length) :
    ∀ (fuel cur : Nat), cur < cols.length →
      nextColumnAux cols start fuel cur < cols.length
  | 0, _, h => h
  | fuel + 1, cur, _ => by
      unfold nextColumnAux
      have hnext : (cur + 1) % cols.length < cols.length := Nat.mod_lt _ hlen
      show (if (cols.getD ((cur + 1) % cols.length) default).hidden = false ∨
            (cur + 1) % cols.length = start then (cur + 1) % cols.length
          else nextColumnAux cols start fuel ((cur + 1) % cols.length)) <
        cols.length
      split
      · exact hnext
      · exact nextColumnAux_lt cols start hlen fuel _ hnext

theorem prevColumnAux_lt (cols : List Column) (start : Nat)
    (hlen : 0 < cols.length) :
    ∀ (fuel cur : Nat), cur < cols.length →
      prevColumnAux cols start fuel cur < cols.length
  | 0, _, h => h
  | fuel + 1, cur, h => by
      unfold prevColumnAux
      have hnext : (if cur = 0 then cols.length - 1 else cur - 1) < cols.length := by
        split <;> omega
      show (if (cols.getD (if cur = 0 then cols.length - 1 else cur - 1)
              default).hidden = false ∨
            (if cur = 0 then cols.length - 1 else cur - 1) = start then
          (if cur = 0 then cols.length - 1 else cur - 1)
        else prevColumnAux cols start fuel
          (if cur = 0 then cols.length - 1 else cur - 1)) < cols.length
      generalize hn : (if cur = 0 then cols.length - 1 else cur - 1) = next at hnext ⊢
      split
      · exact hnext
      · exact prevColumnAux_lt cols start hlen fuel _ hnext

/-- The column well-formedness the engine maintains: a non-empty fixed
column list, an in-range active index and at least one visible column. -/
def colsInvariant (m : TableState R) : Prop :=
  m.columns ≠ [] ∧ m.activeColumn < m.columns.length ∧
  ∃ c ∈ m.columns, c.hidden = false

theorem ensureVisibleActiveColumn_invariant {m : TableState R}
    (h1 : m.columns ≠ []) (h2 : m.activeColumn < m.columns.length) :
    colsInvariant m.ensureVisibleActiveColumn ∧
    m.ensureVisibleActiveColumn.columns.length = m.columns.length := by
  unfold ensureVisibleActiveColumn colsInvariant
  by_cases hvis : (m.columns.getD m.activeColumn default).hidden = false
  · rw [if_pos hvis]
    refine ⟨⟨h1, h2, m.columns.getD m.activeColumn default, ?_, hvis⟩, rfl⟩
    rw [List.getD_eq_getElem m.columns default h2]
    exact List.getElem_mem h2
  · rw [if_neg hvis]
    cases hfind : (List.range m.columns.length).find?
        (fun i => (m.columns.getD i default).hidden = false) with
    | some i =>
        have hi : i < m.columns.length :=
          List.mem_range.mp (List.mem_of_find?_eq_some hfind)
        have hp0 := List.find?_some hfind
        have hp : (m.columns.getD i default).hidden = false := by simpa using hp0
        refine ⟨⟨h1, hi, m.columns.getD i default, ?_, hp⟩, rfl⟩
        rw [List.getD_eq_getElem m.columns default hi]
        exact List.getElem_mem hi
    | none =>
        refine ⟨⟨?_, ?_, ?_⟩, by simp⟩
        · intro hcontra
          exact h1 (by simpa using congrArg List.length hcontra)
        · simpa using List.length_pos.mpr h1
        · refine ⟨{ m.columns.getD 0 default with hidden := false }, ?_, rfl⟩
          cases hc : m.columns with
          | nil => exact absurd hc h1
          | cons c0 t => exact List.mem_cons_self _ _

theorem ensureVisibleActiveColumn_active_visible {m : TableState R}
    (h1 : m.columns ≠ []) :
    ((m.ensureVisibleActiveColumn).columns.getD
      (m.ensureVisibleActiveColumn).activeColumn default).hidden = false := by
  unfold ensureVisibleActiveColumn
  by_cases hvis : (m.columns.getD m.activeColumn default).hidden = false
  · rw [if_pos hvis]
    exact hvis
  · rw [if_neg hvis]
    cases hfind : (List.range m.columns.length).find?
        (fun i => (m.columns.getD i default).hidden = false) with
    | some i =>
        have hp0 := List.find?_some hfind
        simpa using hp0
    | none =>
        cases hc : m.columns with
        | nil => exact absurd hc h1
        | cons c0 t => rfl

theorem hideActiveColumn_of_one (m : TableState R)
    (h : m.visibleColumnIndexes.length = 1) : m.hideActiveColumn = (m, false) := by
  unfold hideActiveColumn
  rw [if_pos (by omega)]

theorem hideActiveColumn_success {m : TableState R}
    (h1 : m.columns ≠ []) (h2 : m.activeColumn < m.columns.length)
    (h3 : ∃ c ∈ m.columns, c.hidden = false) :
    colsInvariant (m.hideActiveColumn).1 ∧
    ((m.hideActiveColumn).2 = true →
      ((m.hideActiveColumn).1.columns.getD
        (m.hideActiveColumn).1.activeColumn default).hidden = false) := by
  unfold hideActiveColumn
  by_cases hle : m.visibleColumnIndexes.length ≤ 1
  · rw [if_pos hle]
    exact ⟨⟨h1, h2, h3⟩, by simp⟩
  · rw [if_neg hle]
    have hne2 : (m.columns.set m.activeColumn
        { m.columns.getD m.activeColumn default with hidden := true }) ≠ [] := by
      intro hcontra
      exact h1 (by simpa using congrArg List.length hcontra)
    have hlen2 : (m.columns.set m.activeColumn
        { m.columns.getD m.activeColumn default with hidden := true }).length =
        m.columns.length := List.length_set m.columns _ _
    obtain ⟨hinv, _⟩ := @ensureVisibleActiveColumn_invariant R
      ({ m with columns := (m.columns.set m.activeColumn { m.columns.getD m.activeColumn default with hidden := true }) })
      hne2 (by simpa [hlen2] using h2)
    exact ⟨hinv, fun _ => ensureVisibleActiveColumn_active_visible hne2⟩

end TableState

theorem TableState.colsInvariant_congr {R : Type} {m m2 : TableState R}
    (h : m.colsInvariant) (hc : m2.columns = m.columns)
    (ha : m2.activeColumn = m.activeColumn) : m2.colsInvariant := by
  obtain ⟨h1, h2, h3⟩ := h
  refine ⟨by rw [hc]; exact h1, by rw [hc, ha]; exact h2, by rw [hc]; exact h3⟩

theorem TableState.rebuild_colsInvariant {R : Type} (gv : R → String → String)
    (rid : R → Int) {m0 : TableState R} (h : m0.colsInvariant) :
    (m0.rebuild gv rid).colsInvariant :=
  TableState.colsInvariant_congr h (by simp) (by simp)

/-- One user-level operation of the Column Table Engine, as dispatched by
the navigation key handlers: the step relation over table states. -/
inductive TableStep {R : Type} [Inhabited R] (gv : R → String → String)
    (rid : R → Int) : TableState R → TableState R → Prop
  | nextColumn (m : TableState R) : TableStep gv rid m m.nextColumn
  | prevColumn (m : TableState R) : TableStep gv rid m m.prevColumn
  | jumpToColumn (m : TableState R) (n : Int) :
      TableStep gv rid m (m.jumpToColumn n).1
  | sortActiveColumn (m : TableState R) (d : Bool) :
      TableStep gv rid m (m.sortActiveColumn gv rid d)
  | cycleSortActiveColumn (m : TableState R) :
      TableStep gv rid m (m.cycleSortActiveColumn gv rid).1
  | hideActiveColumn (m : TableState R) :
      TableStep gv rid m (m.hideActiveColumn).1
  | showAllColumns (m : TableState R) : TableStep gv rid m m.showAllColumns
  | applyPrefs (m : TableState R) (p : TablePrefs) :
      TableStep gv rid m (m.applyPrefs gv rid p)
  | filterBySelectedValue (m : TableState R) :
      TableStep gv rid m (m.filterBySelectedValue gv rid).1
  | clearFilter (m : TableState R) :
      TableStep gv rid m (m.clearFilter gv rid).1
  | cycleFilterBySelectedValue (m : TableState R) :
      TableStep gv rid m (m.cycleFilterBySelectedValue gv rid).1
  | rebuild (m : TableState R) : TableStep gv rid m (m.rebuild gv rid)
  | moveDown (m : TableState R) : TableStep gv rid m m.moveDown
  | moveUp (m : TableState R) : TableStep gv rid m m.moveUp
  | jumpToTop (m : TableState R) : TableStep gv rid m m.jumpToTop
  | jumpToBottom (m : TableState R) : TableStep gv rid m m.jumpToBottom
  | halfPageDown (m : TableState R) (ps : Int) :
      TableStep gv rid m (m.halfPageDown ps)
  | halfPageUp (m : TableState R) (ps : Int) :
      TableStep gv rid m (m.halfPageUp ps)

theorem TableStep_preserves_colsInvariant {R : Type} [Inhabited R]
    (gv : R → String → String) (rid : R → Int) {m m2 : TableState R}
    (hstep : TableStep gv rid m m2) (hinv : m.colsInvariant) :
    m2.colsInvariant := by
  obtain ⟨h1, h2, h3⟩ := hinv
  have hlen : 0 < m.columns.length := List.length_pos.mpr h1
  cases hstep with
  | nextColumn =>
      exact ⟨h1, TableState.nextColumnAux_lt _ _ hlen _ _ h2, h3⟩
  | prevColumn =>
      exact ⟨h1, TableState.prevColumnAux_lt _ _ hlen _ _ h2, h3⟩
  | jumpToColumn n =>
      unfold TableState.jumpToColumn
      by_cases ha : n < 1 ∨ n > (m.columns.length : Int)
      · rw [if_pos ha]
        exact ⟨h1, h2, h3⟩
      · rw [if_neg ha]
        dsimp only
        split
        · exact ⟨h1, h2, h3⟩
        · push_neg at ha
          refine ⟨h1, ?_, h3⟩
          show (n - 1).toNat < m.columns.length
          omega
  | sortActiveColumn d =>
      exact TableState.colsInvariant_congr ⟨h1, h2, h3⟩
        (by simp [TableState.sortActiveColumn])
        (by simp [TableState.sortActiveColumn])
  | cycleSortActiveColumn =>
      refine TableState.colsInvariant_congr ⟨h1, h2, h3⟩ ?_ ?_
      · unfold TableState.cycleSortActiveColumn
        dsimp only
        split_ifs <;> simp
      · unfold TableState.cycleSortActiveColumn
        dsimp only
        split_ifs <;> simp
  | hideActiveColumn =>
      exact (TableState.hideActiveColumn_success h1 h2 h3).1
  | showAllColumns =>
      refine ⟨?_, ?_, ?_⟩
      · show m.columns.map _ ≠ []
        simpa using h1
      · show m.activeColumn < (m.columns.map _).length
        simpa using h2
      · obtain ⟨c0, hc0⟩ := List.exists_mem_of_ne_nil m.columns h1
        exact ⟨{ c0 with hidden := false }, List.mem_map_of_mem _ hc0, rfl⟩
  | applyPrefs p =>
      unfold TableState.applyPrefs
      dsimp only
      apply TableState.rebuild_colsInvariant
      by_cases hs : p.sortKey ≠ ""
      · rw [if_pos hs]
        refine (TableState.ensureVisibleActiveColumn_invariant ?_ ?_).1
        · split
          · split
            · show (m.columns.map (fun col => { col with hidden := p.hiddenColumns.contains col.key })) ≠ []
              intro hcontra
              exact h1 (by simpa using congrArg List.length hcontra)
            · show (m.columns.map (fun col => { col with hidden := p.hiddenColumns.contains col.key })) ≠ []
              intro hcontra
              exact h1 (by simpa using congrArg List.length hcontra)
          · show (m.columns.map (fun col => { col with hidden := p.hiddenColumns.contains col.key })) ≠ []
            intro hcontra
            exact h1 (by simpa using congrArg List.length hcontra)
        · split
          · split
            · rename_i i heq
              show i < (m.columns.map (fun col => { col with hidden := p.hiddenColumns.contains col.key })).length
              simpa using List.mem_range.mp (List.mem_of_find?_eq_some heq)
            · show m.activeColumn < (m.columns.map (fun col => { col with hidden := p.hiddenColumns.contains col.key })).length
              simpa using h2
          · show m.activeColumn < (m.columns.map (fun col => { col with hidden := p.hiddenColumns.contains col.key })).length
            simpa using h2
      · rw [if_neg hs]
        refine (TableState.ensureVisibleActiveColumn_invariant ?_ ?_).1
        · split
          · split
            · show (m.columns.map (fun col => { col with hidden := p.hiddenColumns.contains col.key })) ≠ []
              intro hcontra
              exact h1 (by simpa using congrArg List.length hcontra)
            · show (m.columns.map (fun col => { col with hidden := p.hiddenColumns.contains col.key })) ≠ []
              intro hcontra
              exact h1 (by simpa using congrArg List.length hcontra)
          · show (m.columns.map (fun col => { col with hidden := p.hiddenColumns.contains col.key })) ≠ []
            intro hcontra
            exact h1 (by simpa using congrArg List.length hcontra)
        · split
          · split
            · rename_i i heq
              show i < (m.columns.map (fun col => { col with hidden := p.hiddenColumns.contains col.key })).length
              simpa using List.mem_range.mp (List.mem_of_find?_eq_some heq)
            · show m.activeColumn < (m.columns.map (fun col => { col with hidden := p.hiddenColumns.contains col.key })).length
              simpa using h2
          · show m.activeColumn < (m.columns.map (fun col => { col with hidden := p.hiddenColumns.contains col.key })).length
            simpa using h2
  | filterBySelectedValue =>
      refine TableState.colsInvariant_congr ⟨h1, h2, h3⟩ ?_ ?_
      · unfold TableState.filterBySelectedValue
        dsimp only
        split_ifs <;> simp
      · unfold TableState.filterBySelectedValue
        dsimp only
        split_ifs <;> simp
  | clearFilter =>
      refine TableState.colsInvariant_congr ⟨h1, h2, h3⟩ ?_ ?_
      · unfold TableState.clearFilter
        split_ifs <;> simp
      · unfold TableState.clearFilter
        split_ifs <;> simp
  | cycleFilterBySelectedValue =>
      refine TableState.colsInvariant_congr ⟨h1, h2, h3⟩ ?_ ?_
      · unfold TableState.cycleFilterBySelectedValue
        dsimp only
        split_ifs <;> simp
      · unfold TableState.cycleFilterBySelectedValue
        dsimp only
        split_ifs <;> simp
  | rebuild =>
      exact TableState.rebuild_colsInvariant gv rid ⟨h1, h2, h3⟩
  | moveDown =>
      unfold TableState.moveDown
      dsimp only
      split_ifs <;> exact ⟨h1, h2, h3⟩
  | moveUp =>
      unfold TableState.moveUp
      dsimp only
      split_ifs <;> exact ⟨h1, h2, h3⟩
  | jumpToTop =>
      exact ⟨h1, h2, h3⟩
  | jumpToBottom =>
      unfold TableState.jumpToBottom
      dsimp only
      split_ifs <;> exact ⟨h1, h2, h3⟩
  | halfPageDown ps =>
      exact ⟨h1, h2, h3⟩
  | halfPageUp ps =>
      exact ⟨h1, h2, h3⟩

theorem TableState.hideActiveColumn_rehomes {R : Type} {m : TableState R}
    (h1 : m.columns ≠ []) (hs : (m.hideActiveColumn).2 = true) :
    ((m.hideActiveColumn).1.columns.getD
      (m.hideActiveColumn).1.activeColumn default).hidden = false := by
  unfold TableState.hideActiveColumn at hs ⊢
  by_cases hle : m.visibleColumnIndexes.length ≤ 1
  · rw [if_pos hle] at hs
    simp at hs
  · rw [if_neg hle]
    have hne2 : (m.columns.set m.activeColumn
        { m.columns.getD m.activeColumn default with hidden := true }) ≠ [] := by
      intro hcontra
      exact h1 (by simpa using congrArg List.length hcontra)
    exact TableState.ensureVisibleActiveColumn_active_visible hne2

/-- C7: hiding the active column fails (returns false, with the state
unchanged) when exactly one visible column remains; after any successful
hide the active column index is re-homed to a visible column; and every
table state reachable from a freshly-constructed visits model through
the engine's operations keeps at least one visible column. -/
theorem lastVisibleColumn_protected (gv : VisitRow → String → String)
    (rid : VisitRow → Int) :
    (∀ (m : TableState VisitRow), m.visibleColumnIndexes.length = 1 →
        m.hideActiveColumn = (m, false)) ∧
    (∀ (m : TableState VisitRow), m.columns ≠ [] →
        (m.hideActiveColumn).2 = true →
        ((m.hideActiveColumn).1.columns.getD
          (m.hideActiveColumn).1.activeColumn default).hidden = false) ∧
    (∀ (rows : List VisitRow) (m : TableState VisitRow),
        Relation.ReflTransGen (TableStep gv rid) (newVisitsModel rows) m →
        ∃ c ∈ m.columns, c.hidden = false) := by
  refine ⟨fun m h => TableState.hideActiveColumn_of_one m h,
    fun m h1 hs => TableState.hideActiveColumn_rehomes h1 hs, ?_⟩
  intro rows m hreach
  have hinit : (newVisitsModel rows).colsInvariant := by
    refine ⟨by simp [newVisitsModel], by simp [newVisitsModel], ?_⟩
    exact ⟨{ key := "date", label := "date", width := 12, hidden := false },
      by simp [newVisitsModel], rfl⟩
  have hinv : m.colsInvariant := by
    induction hreach with
    | refl => exact hinit
    | tail _ hstep ih => exact TableStep_preserves_colsInvariant gv rid hstep ih
  exact hinv.2.2

/-- Witness for the C7 theorem: on a single-visible-column state the
hide operation fails and changes nothing. -/
theorem lastVisibleColumn_protected_witness :
    ({ allRows := [], rows := [], cursor := 0, offset := 0
       viewportHeight := 0
       columns := [{ key := "date", label := "date", width := 12, hidden := false }]
       activeColumn := 0, sortKey := "", sortDesc := false
       filterKey := "", filterValue := "" } :
        TableState VisitRow).visibleColumnIndexes.length = 1 ∧
    ({ allRows := [], rows := [], cursor := 0, offset := 0
       viewportHeight := 0
       columns := [{ key := "date", label := "date", width := 12, hidden := false }]
       activeColumn := 0, sortKey := "", sortDesc := false
       filterKey := "", filterValue := "" } :
        TableState VisitRow).hideActiveColumn =
      ({ allRows := [], rows := [], cursor := 0, offset := 0
         viewportHeight := 0
         columns := [{ key := "date", label := "date", width := 12, hidden := false }]
         activeColumn := 0, sortKey := "", sortDesc := false
         filterKey := "", filterValue := "" }, false) := by
  refine ⟨by decide, ?_⟩
  exact (lastVisibleColumn_protected visitGetValue (fun r => r.id)).1 _ (by decide)

/-! ## Claim about the derivation of `visible` (C3) -/

theorem charToLower_idem (c : Char) : c.toLower.toLower = c.toLower := by
  unfold Char.toLower
  by_cases h : c.toNat ≥ 65 ∧ c.toNat ≤ 90
  · rw [if_pos h]
    have hv : (Char.ofNat (c.toNat + 32)).toNat = c.toNat + 32 := by
      unfold Char.ofNat
      split
      · rfl
      · rename_i hnv
        exfalso
        apply hnv
        left
        omega
    rw [if_neg (by rw [hv]; omega)]
  · rw [if_neg h, if_neg h]

theorem lowerStr_idem (s : String) : lowerStr (lowerStr s) = lowerStr s := by
  unfold lowerStr
  refine congrArg String.mk ?_
  show (s.data.map Char.toLower).map Char.toLower = s.data.map Char.toLower
  rw [List.map_map]
  exact List.map_congr_left (fun c _ => charToLower_idem c)

theorem rebuildFilterPred_eq_specFilterPred {R : Type}
    (gv : R → String → String) (k v : String) (r : R) :
    TableState.rebuildFilterPred gv k v r = specFilterPred gv k v r := by
  unfold TableState.rebuildFilterPred specFilterPred eqFold
  rw [lowerStr_idem]

theorem specLE_iff {R : Type} (gv : R → String → String) (rid : R → Int)
    (k : String) (d : Bool) (a b : R) :
    specLE gv rid k d a b = true ↔
      (if d then
        (lowerStr (gv b k) < lowerStr (gv a k) ∨
          (lowerStr (gv a k) = lowerStr (gv b k) ∧ rid b ≤ rid a))
      else
        (lowerStr (gv a k) < lowerStr (gv b k) ∨
          (lowerStr (gv a k) = lowerStr (gv b k) ∧ rid b ≤ rid a))) := by
  unfold specLE
  cases d <;> simp

theorem specLE_trans {R : Type} (gv : R → String → String) (rid : R → Int)
    (k : String) (d : Bool) :
    ∀ (a b c : R), specLE gv rid k d a b = true → specLE gv rid k d b c = true →
      specLE gv rid k d a c = true := by
  intro a b c hab hbc
  rw [specLE_iff] at hab hbc ⊢
  cases d
  · simp only [if_neg Bool.false_ne_true] at hab hbc ⊢
    rcases hab with h1 | ⟨h1, h2⟩ <;> rcases hbc with h3 | ⟨h3, h4⟩
    · exact Or.inl (lt_trans h1 h3)
    · exact Or.inl (by rw [← h3]; exact h1)
    · exact Or.inl (by rw [h1]; exact h3)
    · exact Or.inr ⟨h1.trans h3, le_trans h4 h2⟩
  · simp only [if_pos rfl] at hab hbc ⊢
    rcases hab with h1 | ⟨h1, h2⟩ <;> rcases hbc with h3 | ⟨h3, h4⟩
    · exact Or.inl (lt_trans h3 h1)
    · exact Or.inl (by rw [← h3]; exact h1)
    · exact Or.inl (by rw [h1]; exact h3)
    · exact Or.inr ⟨h1.trans h3, le_trans h4 h2⟩

theorem specLE_total {R : Type} (gv : R → String → String) (rid : R → Int)
    (k : String) (d : Bool) :
    ∀ (a b : R), (specLE gv rid k d a b || specLE gv rid k d b a) = true := by
  intro a b
  rw [Bool.or_eq_true, specLE_iff, specLE_iff]
  rcases lt_trichotomy (lowerStr (gv a k)) (lowerStr (gv b k)) with h | h | h
  · cases d
    · simp only [if_neg Bool.false_ne_true]
      exact Or.inl (Or.inl h)
    · simp only [if_pos rfl]
      exact Or.inr (Or.inl h)
  · rcases le_total (rid b) (rid a) with hr | hr
    · cases d <;> exact Or.inl (by simp [h, hr])
    · cases d <;> exact Or.inr (by simp [h, hr])
  · cases d
    · simp only [if_neg Bool.false_ne_true]
      exact Or.inr (Or.inl h)
    · simp only [if_pos rfl]
      exact Or.inl (Or.inl h)

theorem goSortLE_eq_specLE {R : Type} (gv : R → String → String)
    (rid : R → Int) (k : String) (d : Bool) (a b : R) :
    (! TableState.rebuildLess gv rid k d b a) = specLE gv rid k d a b := by
  unfold TableState.rebuildLess specLE
  by_cases he : lowerStr (gv b k) = lowerStr (gv a k)
  · rw [if_pos he]
    cases d <;>
      simp [he, lt_self_iff_false, ← decide_not, not_lt, gt_iff_lt]
  · rw [if_neg he]
    have hne : lowerStr (gv a k) ≠ lowerStr (gv b k) := fun h => he h.symm
    cases d
    · simp only [ite_false, if_false, Bool.if_false_left]
      by_cases hlt : lowerStr (gv b k) < lowerStr (gv a k)
      · simp [hlt, not_lt_of_gt hlt, hne]
      · have hlt2 : lowerStr (gv a k) < lowerStr (gv b k) :=
          lt_of_le_of_ne (not_lt.mp hlt) hne
        simp [hlt, hlt2, hne]
    · simp only [ite_true, if_true]
      by_cases hlt : lowerStr (gv a k) < lowerStr (gv b k)
      · simp [hlt, not_lt_of_gt hlt, hne]
      · have hlt2 : lowerStr (gv b k) < lowerStr (gv a k) :=
          lt_of_le_of_ne (not_lt.mp hlt) (fun h => hne h.symm)
        simp [hlt, hlt2, hne]

theorem specVisible_eq_if {R : Type} (gv : R → String → String)
    (rid : R → Int) (m : TableState R) :
    specVisible gv rid m =
      (if m.sortKey ≠ "" then
        (if m.filterKey ≠ "" ∧ m.filterValue ≠ "" then
          m.allRows.filter (specFilterPred gv m.filterKey m.filterValue)
        else m.allRows).mergeSort (specLE gv rid m.sortKey m.sortDesc)
      else
        (if m.filterKey ≠ "" ∧ m.filterValue ≠ "" then
          m.allRows.filter (specFilterPred gv m.filterKey m.filterValue)
        else m.allRows)) := rfl

/-- C3 counterexample.  The claim filters `all` by case-insensitive
exact match of the trimmed filter value against the column's string
projection, leaving the projection untrimmed.  `rebuild` trims the
record's projection too: a visit row whose name projects to " X " under
filter key "name" and filter value "X" is kept by `rebuild`, while the
claim's literal filter rejects it — the derived `visible` is then not
even a permutation of the literally-filtered subset (one row against
none). -/
theorem visible_literal_filter_counterexample :
    ((({ newVisitsModel
          [⟨1, "2024-01-01", " X ", "", "", "", none, none, "", 1⟩] with
        filterKey := "name", filterValue := "X" } :
          TableState VisitRow).rebuild visitGetValue (fun r => r.id)).rows =
      [⟨1, "2024-01-01", " X ", "", "", "", none, none, "", 1⟩]) ∧
    ([⟨1, "2024-01-01", " X ", "", "", "", none, none, "", 1⟩] :
        List VisitRow).filter (specFilterPredLiteral visitGetValue "name" "X") =
      [] := by
  constructor
  · decide
  · decide

/-- C3, amended: for every record set `allRows`, every (filterKey,
filterValue) pair and every (sortKey, sortDesc), the visible rows derived
by `rebuild` equal the spec pipeline `specVisible` — filter by
case-insensitive exact match of the trimmed filter value against the
trimmed column projection, then stably sort by the case-insensitive
projection of the sort key in the requested direction with ties broken by
descending record identity — hence they are a permutation of the
spec-filtered subset of `allRows`, and whenever a sort key is set they
are `specLE`-sorted. -/
theorem visible_matches_spec {R : Type} (gv : R → String → String)
    (rid : R → Int) (m : TableState R) :
    (m.rebuild gv rid).rows = specVisible gv rid m ∧
    (m.rebuild gv rid).rows.Perm
      (if m.filterKey ≠ "" ∧ m.filterValue ≠ "" then
        m.allRows.filter (specFilterPred gv m.filterKey m.filterValue)
      else m.allRows) ∧
    (m.sortKey ≠ "" →
      List.Pairwise (fun a b => specLE gv rid m.sortKey m.sortDesc a b = true)
        (m.rebuild gv rid).rows) := by
  have hfil : m.allRows.filter
        (TableState.rebuildFilterPred gv m.filterKey m.filterValue)
      = m.allRows.filter (specFilterPred gv m.filterKey m.filterValue) :=
    List.filter_congr
      (fun a _ => rebuildFilterPred_eq_specFilterPred gv m.filterKey m.filterValue a)
  have hfiltered : TableState.filteredRows gv m =
      (if m.filterKey ≠ "" ∧ m.filterValue ≠ "" then
        m.allRows.filter (specFilterPred gv m.filterKey m.filterValue)
      else m.allRows) := by
    unfold TableState.filteredRows
    split
    · exact hfil
    · rfl
  have hle : (fun a b => ! TableState.rebuildLess gv rid m.sortKey m.sortDesc b a)
      = specLE gv rid m.sortKey m.sortDesc :=
    funext fun a => funext fun b => goSortLE_eq_specLE gv rid m.sortKey m.sortDesc a b
  have h1 : (m.rebuild gv rid).rows = specVisible gv rid m := by
    rw [TableState.rebuild_rows, specVisible_eq_if]
    by_cases hc : m.sortKey ≠ ""
    · rw [if_pos hc, if_pos hc]
      unfold sliceStable
      rw [hfiltered, hle]
    · rw [if_neg hc, if_neg hc]
      exact hfiltered
  refine ⟨h1, ?_, ?_⟩
  · rw [h1, specVisible_eq_if]
    by_cases hc : m.sortKey ≠ ""
    · rw [if_pos hc]
      exact List.mergeSort_perm _ _
    · rw [if_neg hc]
  · intro hs
    rw [h1, specVisible_eq_if, if_pos hs]
    exact List.sorted_mergeSort
      (specLE_trans gv rid m.sortKey m.sortDesc)
      (specLE_total gv rid m.sortKey m.sortDesc) _

/-- Witness for the visible-pipeline theorem: a concrete two-row visits
table sorted by name has specLE-sorted visible rows. -/
theorem visible_matches_spec_witness :
    "name" ≠ "" ∧
    List.Pairwise
      (fun a b => specLE visitGetValue (fun r => r.id) "name" false a b = true)
      ((({ newVisitsModel
            [⟨1, "2024-01-01", "Beta", "", "", "", none, none, "", 1⟩,
             ⟨2, "2024-01-02", "alpha", "", "", "", none, none, "", 2⟩] with
          sortKey := "name" } : TableState VisitRow)).rebuild visitGetValue
        (fun r => r.id)).rows :=
  ⟨by decide,
    (visible_matches_spec visitGetValue (fun r => r.id)
      ({ newVisitsModel
            [⟨1, "2024-01-01", "Beta", "", "", "", none, none, "", 1⟩,
             ⟨2, "2024-01-02", "alpha", "", "", "", none, none, "", 2⟩] with
          sortKey := "name" } : TableState VisitRow)).2.2 (by decide)⟩

/-! ## Claim about cascade-delete undo (C4) -/

theorem visitIdSorted (l : List Visit) :
    List.Pairwise (fun a b => decide (a.id ≤ b.id) = true)
      (l.mergeSort (fun a b => decide (a.id ≤ b.id))) :=
  List.sorted_mergeSort
    (fun a b c hab hbc => by
      simp only [decide_eq_true_eq] at hab hbc ⊢
      exact le_trans hab hbc)
    (fun a b => by
      simp only [Bool.or_eq_true, decide_eq_true_eq]
      exact Int.le_total a.id b.id)
    l

theorem wtvIdSorted (l : List WantToVisit) :
    List.Pairwise (fun a b => decide (a.id ≤ b.id) = true)
      (l.mergeSort (fun a b => decide (a.id ≤ b.id))) :=
  List.sorted_mergeSort
    (fun a b c hab hbc => by
      simp only [decide_eq_true_eq] at hab hbc ⊢
      exact le_trans hab hbc)
    (fun a b => by
      simp only [Bool.or_eq_true, decide_eq_true_eq]
      exact Int.le_total a.id b.id)
    l

theorem foldlM_insertWantToVisit_ok (entries : List WantToVisit) :
    ∀ (db : Db),
      (∀ w ∈ entries, ∀ x ∈ db.wantToVisit, x.id ≠ w.id) →
      (entries.map (fun w => w.id)).Nodup →
      entries.foldlM Db.InsertWantToVisitWithID db =
        .ok { db with wantToVisit := db.wantToVisit ++ entries } := by
  induction entries with
  | nil =>
      intro db _ _
      rw [List.foldlM_nil, List.append_nil]
      rfl
  | cons w ws ih =>
      intro db hdisj hnodup
      have hany : ¬ (db.wantToVisit.any (fun x => decide (x.id = w.id)) = true) := by
        intro hc
        simp only [List.any_eq_true, decide_eq_true_eq] at hc
        obtain ⟨x, hx, hxe⟩ := hc
        exact hdisj w (List.mem_cons_self w ws) x hx hxe
      have h1 : Db.InsertWantToVisitWithID db w =
          .ok { db with wantToVisit := db.wantToVisit ++ [w] } := by
        unfold Db.InsertWantToVisitWithID
        rw [if_neg hany]
      rw [List.foldlM_cons, h1]
      show ws.foldlM Db.InsertWantToVisitWithID
        { db with wantToVisit := db.wantToVisit ++ [w] } = _
      simp only [List.map_cons, List.nodup_cons, List.mem_map] at hnodup
      have hdisj2 : ∀ w2 ∈ ws,
          ∀ x ∈ ({ db with wantToVisit := db.wantToVisit ++ [w] } : Db).wantToVisit,
            x.id ≠ w2.id := by
        intro w2 hw2 x hx
        rcases List.mem_append.mp hx with hx | hx
        · exact hdisj w2 (List.mem_cons_of_mem _ hw2) x hx
        · rcases List.mem_singleton.mp hx with rfl
          intro he
          exact hnodup.1 ⟨w2, hw2, he.symm⟩
      rw [ih { db with wantToVisit := db.wantToVisit ++ [w] } hdisj2 hnodup.2]
      simp [List.append_assoc]

theorem foldlM_insertVisit_ok (visits : List Visit) :
    ∀ (db : Db),
      (∀ v ∈ visits, ∀ x ∈ db.visits, x.id ≠ v.id) →
      (visits.map (fun v => v.id)).Nodup →
      visits.foldlM Db.InsertVisitWithID db =
        .ok { db with visits := db.visits ++ visits } := by
  induction visits with
  | nil =>
      intro db _ _
      rw [List.foldlM_nil, List.append_nil]
      rfl
  | cons v vs ih =>
      intro db hdisj hnodup
      have hany : ¬ (db.visits.any (fun x => decide (x.id = v.id)) = true) := by
        intro hc
        simp only [List.any_eq_true, decide_eq_true_eq] at hc
        obtain ⟨x, hx, hxe⟩ := hc
        exact hdisj v (List.mem_cons_self v vs) x hx hxe
      have h1 : Db.InsertVisitWithID db v =
          .ok { db with visits := db.visits ++ [v] } := by
        unfold Db.InsertVisitWithID
        rw [if_neg hany]
      rw [List.foldlM_cons, h1]
      show vs.foldlM Db.InsertVisitWithID
        { db with visits := db.visits ++ [v] } = _
      simp only [List.map_cons, List.nodup_cons, List.mem_map] at hnodup
      have hdisj2 : ∀ v2 ∈ vs,
          ∀ x ∈ ({ db with visits := db.visits ++ [v] } : Db).visits,
            x.id ≠ v2.id := by
        intro v2 hv2 x hx
        rcases List.mem_append.mp hx with hx | hx
        · exact hdisj v2 (List.mem_cons_of_mem _ hv2) x hx
        · rcases List.mem_singleton.mp hx with rfl
          intro he
          exact hnodup.1 ⟨v2, hv2, he.symm⟩
      rw [ih { db with visits := db.visits ++ [v] } hdisj2 hnodup.2]
      simp [List.append_assoc]

theorem undoDeleteRestaurant_ok (dbD : Db) (r : Restaurant)
    (ws : List WantToVisit) (vs : List Visit)
    (hra : ∀ x ∈ dbD.restaurants, x.id ≠ r.id)
    (hwd : ∀ w ∈ ws, ∀ x ∈ dbD.wantToVisit, x.id ≠ w.id)
    (hwsn : (ws.map (fun w => w.id)).Nodup)
    (hvd : ∀ v ∈ vs, ∀ x ∈ dbD.visits, x.id ≠ v.id)
    (hvsn : (vs.map (fun v => v.id)).Nodup) :
    undoDeleteRestaurant dbD r ws vs =
      .ok { restaurants := dbD.restaurants ++ [r],
            visits := dbD.visits ++ vs,
            wantToVisit := dbD.wantToVisit ++ ws } := by
  have hno : ¬ (dbD.restaurants.any (fun x => decide (x.id = r.id)) = true) := by
    intro hc
    simp only [List.any_eq_true, decide_eq_true_eq] at hc
    obtain ⟨x, hx, hxe⟩ := hc
    exact hra x hx hxe
  have h1 : Db.InsertRestaurantWithID dbD r =
      .ok { dbD with restaurants := dbD.restaurants ++ [r] } := by
    unfold Db.InsertRestaurantWithID
    rw [if_neg hno]
  unfold undoDeleteRestaurant
  rw [h1]
  show (do
      let dbB ← ws.foldlM Db.InsertWantToVisitWithID
        { dbD with restaurants := dbD.restaurants ++ [r] }
      let dbC ← vs.foldlM Db.InsertVisitWithID dbB
      pure dbC) = _
  rw [foldlM_insertWantToVisit_ok ws
    { dbD with restaurants := dbD.restaurants ++ [r] } hwd hwsn]
  show (do
      let dbC ← vs.foldlM Db.InsertVisitWithID
        { restaurants := dbD.restaurants ++ [r]
          visits := dbD.visits
          wantToVisit := dbD.wantToVisit ++ ws }
      pure dbC) = _
  rw [foldlM_insertVisit_ok vs
    { restaurants := dbD.restaurants ++ [r]
      visits := dbD.visits
      wantToVisit := dbD.wantToVisit ++ ws } hvd hvsn]
  rfl

theorem DeleteRestaurant_restore_cancel (dbD : Db) (r : Restaurant)
    (vs : List Visit) (ws : List WantToVisit) (rid : Int)
    (h1 : ∀ x ∈ dbD.restaurants, ¬ x.id = rid)
    (h2 : ∀ x ∈ dbD.visits, ¬ x.restaurantID = rid)
    (h3 : ∀ x ∈ dbD.wantToVisit, ¬ x.restaurantID = rid)
    (hr : r.id = rid)
    (hv : ∀ v ∈ vs, v.restaurantID = rid)
    (hw : ∀ w ∈ ws, w.restaurantID = rid) :
    Db.DeleteRestaurant
      { restaurants := dbD.restaurants ++ [r],
        visits := dbD.visits ++ vs,
        wantToVisit := dbD.wantToVisit ++ ws } rid = dbD := by
  have hA : (dbD.restaurants ++ [r]).filter (fun x => decide (¬ x.id = rid))
      = dbD.restaurants := by
    rw [List.filter_append]
    have he : [r].filter (fun x => decide (¬ x.id = rid)) = [] := by
      simp [hr]
    rw [he, List.append_nil]
    exact List.filter_eq_self.mpr (fun x hx => by simpa using h1 x hx)
  have hB : (dbD.visits ++ vs).filter (fun x => decide (¬ x.restaurantID = rid))
      = dbD.visits := by
    rw [List.filter_append]
    have he : vs.filter (fun x => decide (¬ x.restaurantID = rid)) = [] := by
      rw [List.filter_eq_nil_iff]
      intro v hv2
      simp [hv v hv2]
    rw [he, List.append_nil]
    exact List.filter_eq_self.mpr (fun x hx => by simpa using h2 x hx)
  have hC : (dbD.wantToVisit ++ ws).filter (fun x => decide (¬ x.restaurantID = rid))
      = dbD.wantToVisit := by
    rw [List.filter_append]
    have he : ws.filter (fun x => decide (¬ x.restaurantID = rid)) = [] := by
      rw [List.filter_eq_nil_iff]
      intro w hw2
      simp [hw w hw2]
    rw [he, List.append_nil]
    exact List.filter_eq_self.mpr (fun x hx => by simpa using h3 x hx)
  unfold Db.DeleteRestaurant
  show Db.mk ((dbD.restaurants ++ [r]).filter (fun x => decide (¬ x.id = rid)))
      ((dbD.visits ++ vs).filter (fun x => decide (¬ x.restaurantID = rid)))
      ((dbD.wantToVisit ++ ws).filter (fun x => decide (¬ x.restaurantID = rid))) = dbD
  rw [hA, hB, hC]

/-- C4: a cascade delete of a parent restaurant captures the parent and
every dependent visit and want-to-visit row before the cascade runs; the
undo closure then re-inserts the parent first and every captured
dependent with its original primary identity, so that re-querying the
parent and its dependents-by-parent afterwards returns exactly the
pre-delete rows, and the redo closure re-runs the cascade delete,
returning the store to its post-delete state.  The store's primary-key
uniqueness is the `Nodup` hypothesis on each table's ids. -/
theorem cascadeDelete_undo_roundtrip (db : Db) (restaurantID : Int)
    (restaurant : Restaurant) (visits : List Visit)
    (entries : List WantToVisit) (db2 : Db)
    (hvn : (db.visits.map (fun v => v.id)).Nodup)
    (hwn : (db.wantToVisit.map (fun w => w.id)).Nodup)
    (hcmd : deleteRestaurantCmd db restaurantID =
      some (restaurant, visits, entries, db2)) :
    ∃ db3,
      undoDeleteRestaurant db2 restaurant entries visits = .ok db3 ∧
      db3.GetRestaurant restaurantID = some restaurant ∧
      db3.GetVisitsByRestaurant restaurantID = visits ∧
      db3.GetWantToVisitByRestaurant restaurantID = entries ∧
      redoDeleteRestaurant db3 restaurant = db2 := by
  unfold deleteRestaurantCmd at hcmd
  cases hfind : Db.GetRestaurant db restaurantID with
  | none =>
      rw [hfind] at hcmd
      simp at hcmd
  | some r =>
      rw [hfind] at hcmd
      simp only [Option.some.injEq, Prod.mk.injEq] at hcmd
      obtain ⟨rfl, rfl, rfl, rfl⟩ := hcmd
      have hfind2 := hfind
      unfold Db.GetRestaurant at hfind2
      have hrid : r.id = restaurantID := by
        have := List.find?_some hfind2
        simpa using this
      have hvmem : ∀ v ∈ Db.GetVisitsByRestaurant db restaurantID,
          v ∈ db.visits ∧ v.restaurantID = restaurantID := by
        intro v hv
        unfold Db.GetVisitsByRestaurant at hv
        have hv2 := (List.mergeSort_perm _ _).mem_iff.mp hv
        have hv3 := List.mem_filter.mp hv2
        exact ⟨hv3.1, by simpa using hv3.2⟩
      have hwmem : ∀ w ∈ Db.GetWantToVisitByRestaurant db restaurantID,
          w ∈ db.wantToVisit ∧ w.restaurantID = restaurantID := by
        intro w hw
        unfold Db.GetWantToVisitByRestaurant at hw
        have hw2 := (List.mergeSort_perm _ _).mem_iff.mp hw
        have hw3 := List.mem_filter.mp hw2
        exact ⟨hw3.1, by simpa using hw3.2⟩
      have hvsn : ((Db.GetVisitsByRestaurant db restaurantID).map
          (fun v => v.id)).Nodup := by
        unfold Db.GetVisitsByRestaurant
        refine ((List.mergeSort_perm _ _).map _).nodup_iff.mpr ?_
        exact ((List.filter_sublist _).map (fun v : Visit => v.id)).nodup hvn
      have hwsn : ((Db.GetWantToVisitByRestaurant db restaurantID).map
          (fun w => w.id)).Nodup := by
        unfold Db.GetWantToVisitByRestaurant
        refine ((List.mergeSort_perm _ _).map _).nodup_iff.mpr ?_
        exact ((List.filter_sublist _).map (fun w : WantToVisit => w.id)).nodup hwn
      have hvd : ∀ v ∈ Db.GetVisitsByRestaurant db restaurantID,
          ∀ x ∈ (Db.DeleteRestaurant db restaurantID).visits, x.id ≠ v.id := by
        intro v hv x hx
        have hv2 := hvmem v hv
        simp only [Db.DeleteRestaurant] at hx
        have hx2 := List.mem_filter.mp hx
        intro he
        have hxe : x = v := List.inj_on_of_nodup_map hvn hx2.1 hv2.1 he
        have hcontra := hx2.2
        rw [hxe] at hcontra
        simp only [decide_eq_true_eq] at hcontra
        exact hcontra hv2.2
      have hwd : ∀ w ∈ Db.GetWantToVisitByRestaurant db restaurantID,
          ∀ x ∈ (Db.DeleteRestaurant db restaurantID).wantToVisit, x.id ≠ w.id := by
        intro w hw x hx
        have hw2 := hwmem w hw
        simp only [Db.DeleteRestaurant] at hx
        have hx2 := List.mem_filter.mp hx
        intro he
        have hxe : x = w := List.inj_on_of_nodup_map hwn hx2.1 hw2.1 he
        have hcontra := hx2.2
        rw [hxe] at hcontra
        simp only [decide_eq_true_eq] at hcontra
        exact hcontra hw2.2
      have hra : ∀ x ∈ (Db.DeleteRestaurant db restaurantID).restaurants,
          x.id ≠ r.id := by
        intro x hx
        simp only [Db.DeleteRestaurant] at hx
        have hx2 := List.mem_filter.mp hx
        have hcontra := hx2.2
        simp only [decide_eq_true_eq] at hcontra
        intro he
        exact hcontra (he.trans hrid)
      refine ⟨_, undoDeleteRestaurant_ok (Db.DeleteRestaurant db restaurantID) r
        (Db.GetWantToVisitByRestaurant db restaurantID)
        (Db.GetVisitsByRestaurant db restaurantID) hra hwd hwsn hvd hvsn,
        ?_, ?_, ?_, ?_⟩
      · show List.find? (fun x => decide (x.id = restaurantID))
          ((Db.DeleteRestaurant db restaurantID).restaurants ++ [r]) = some r
        rw [List.find?_append]
        have hnone : List.find? (fun x => decide (x.id = restaurantID))
            (Db.DeleteRestaurant db restaurantID).restaurants = none := by
          rw [List.find?_eq_none]
          intro x hx
          simp only [Db.DeleteRestaurant] at hx
          simpa using (List.mem_filter.mp hx).2
        rw [hnone]
        simp [List.find?, hrid]
      · show (((Db.DeleteRestaurant db restaurantID).visits ++
            Db.GetVisitsByRestaurant db restaurantID).filter
              (fun v => decide (v.restaurantID = restaurantID))).mergeSort
            (fun a b => decide (a.id ≤ b.id)) =
          Db.GetVisitsByRestaurant db restaurantID
        rw [List.filter_append]
        have hz : (Db.DeleteRestaurant db restaurantID).visits.filter
            (fun v => decide (v.restaurantID = restaurantID)) = [] := by
          rw [List.filter_eq_nil_iff]
          intro v hv
          simp only [Db.DeleteRestaurant] at hv
          simpa using (List.mem_filter.mp hv).2
        have hall : (Db.GetVisitsByRestaurant db restaurantID).filter
            (fun v => decide (v.restaurantID = restaurantID)) =
            Db.GetVisitsByRestaurant db restaurantID :=
          List.filter_eq_self.mpr (fun v hv => by simpa using (hvmem v hv).2)
        rw [hz, List.nil_append, hall]
        have hsorted : List.Pairwise (fun a b => decide (a.id ≤ b.id) = true)
            (Db.GetVisitsByRestaurant db restaurantID) := by
          unfold Db.GetVisitsByRestaurant
          exact visitIdSorted _
        exact List.mergeSort_of_sorted hsorted
      · show (((Db.DeleteRestaurant db restaurantID).wantToVisit ++
            Db.GetWantToVisitByRestaurant db restaurantID).filter
              (fun w => decide (w.restaurantID = restaurantID))).mergeSort
            (fun a b => decide (a.id ≤ b.id)) =
          Db.GetWantToVisitByRestaurant db restaurantID
        rw [List.filter_append]
        have hz : (Db.DeleteRestaurant db restaurantID).wantToVisit.filter
            (fun w => decide (w.restaurantID = restaurantID)) = [] := by
          rw [List.filter_eq_nil_iff]
          intro w hw
          simp only [Db.DeleteRestaurant] at hw
          simpa using (List.mem_filter.mp hw).2
        have hall : (Db.GetWantToVisitByRestaurant db restaurantID).filter
            (fun w => decide (w.restaurantID = restaurantID)) =
            Db.GetWantToVisitByRestaurant db restaurantID :=
          List.filter_eq_self.mpr (fun w hw => by simpa using (hwmem w hw).2)
        rw [hz, List.nil_append, hall]
        have hsorted : List.Pairwise (fun a b => decide (a.id ≤ b.id) = true)
            (Db.GetWantToVisitByRestaurant db restaurantID) := by
          unfold Db.GetWantToVisitByRestaurant
          exact wtvIdSorted _
        exact List.mergeSort_of_sorted hsorted
      · show Db.DeleteRestaurant
          { restaurants := (Db.DeleteRestaurant db restaurantID).restaurants ++ [r],
            visits := (Db.DeleteRestaurant db restaurantID).visits ++
              Db.GetVisitsByRestaurant db restaurantID,
            wantToVisit := (Db.DeleteRestaurant db restaurantID).wantToVisit ++
              Db.GetWantToVisitByRestaurant db restaurantID } r.id =
          Db.DeleteRestaurant db restaurantID
        rw [hrid]
        exact DeleteRestaurant_restore_cancel _ _ _ _ _
          (fun x hx => by
            simp only [Db.DeleteRestaurant] at hx
            simpa using (List.mem_filter.mp hx).2)
          (fun x hx => by
            simp only [Db.DeleteRestaurant] at hx
            simpa using (List.mem_filter.mp hx).2)
          (fun x hx => by
            simp only [Db.DeleteRestaurant] at hx
            simpa using (List.mem_filter.mp hx).2)
          hrid
          (fun v hv => (hvmem v hv).2)
          (fun w hw => (hwmem w hw).2)

/-- Witness for the cascade-delete round trip: one restaurant with one
dependent visit and one want-to-visit entry, deleted and then undone. -/
theorem cascadeDelete_undo_roundtrip_witness :
    (([⟨1, 1, "2024-01-01", none, "", none⟩] : List Visit).map
      (fun v => v.id)).Nodup ∧
    (([⟨1, 1, "", none⟩] : List WantToVisit).map (fun w => w.id)).Nodup ∧
    deleteRestaurantCmd
      { restaurants := [⟨1, "Tavern", "", "", "", "", "", none, none, ""⟩]
        visits := [⟨1, 1, "2024-01-01", none, "", none⟩]
        wantToVisit := [⟨1, 1, "", none⟩] } 1 =
      some (⟨1, "Tavern", "", "", "", "", "", none, none, ""⟩,
        [⟨1, 1, "2024-01-01", none, "", none⟩],
        [⟨1, 1, "", none⟩],
        { restaurants := [], visits := [], wantToVisit := [] }) ∧
    (∃ db3,
      undoDeleteRestaurant { restaurants := [], visits := [], wantToVisit := [] }
        ⟨1, "Tavern", "", "", "", "", "", none, none, ""⟩
        [⟨1, 1, "", none⟩]
        [⟨1, 1, "2024-01-01", none, "", none⟩] = .ok db3 ∧
      db3.GetRestaurant 1 = some ⟨1, "Tavern", "", "", "", "", "", none, none, ""⟩ ∧
      db3.GetVisitsByRestaurant 1 = [⟨1, 1, "2024-01-01", none, "", none⟩] ∧
      db3.GetWantToVisitByRestaurant 1 = [⟨1, 1, "", none⟩] ∧
      redoDeleteRestaurant db3 ⟨1, "Tavern", "", "", "", "", "", none, none, ""⟩ =
        { restaurants := [], visits := [], wantToVisit := [] }) :=
  ⟨by decide, by decide,
    by
      simp [deleteRestaurantCmd, Db.GetRestaurant, Db.GetVisitsByRestaurant,
        Db.GetWantToVisitByRestaurant, Db.DeleteRestaurant, List.find?, List.filter],
    cascadeDelete_undo_roundtrip
      { restaurants := [⟨1, "Tavern", "", "", "", "", "", none, none, ""⟩]
        visits := [⟨1, 1, "2024-01-01", none, "", none⟩]
        wantToVisit := [⟨1, 1, "", none⟩] } 1
      ⟨1, "Tavern", "", "", "", "", "", none, none, ""⟩
      [⟨1, 1, "2024-01-01", none, "", none⟩]
      [⟨1, 1, "", none⟩]
      { restaurants := [], visits := [], wantToVisit := [] }
      (by decide) (by decide)
      (by
        simp [deleteRestaurantCmd, Db.GetRestaurant, Db.GetVisitsByRestaurant,
          Db.GetWantToVisitByRestaurant, Db.DeleteRestaurant, List.find?,
          List.filter])⟩

end Toni
